import Mathlib

/-!
# gr-osmosdr: the aggregating sink `osmosdr_sink_c_impl`

A shallow embedding of `lib/osmosdr_sink_c_impl.cc`.

* The hardware backends are external: they are the fields of `osmosdr_snk_iface`,
  functions over an explicit hardware state `W` that may raise (`Except.error`).
* The sink is a record of its C++ members plus two ghost fields: the hardware
  state and the log of backend operations invoked so far.
* `size_t` is `Nat`: the channel counters are bounded by the number of wired
  streams, far below `2^64`; the one subtraction that can wrap (the padding count
  of the constructor) is taken modulo `2^64`.
* `double` is `Dbl`: the code only stores, returns and compares doubles with `!=`,
  and it initialises `_sample_rate` with `NAN`, so NaN is part of the model.
-/

namespace GrOsmoSDR

/-! ## Values -/

/-- A C++ `double` up to `==`: either NaN or a number. -/
inductive Dbl where
  | nan : Dbl
  | num (q : ℚ) : Dbl
deriving DecidableEq

instance : Inhabited Dbl := ⟨Dbl.num 0⟩

instance : OfNat Dbl n := ⟨Dbl.num n⟩

/-- The C++ operator `a != b` on doubles: true as soon as one side is NaN. -/
def Dbl.ne : Dbl → Dbl → Bool
  | .num a, .num b => a != b
  | _, _ => true

/-- A value is NaN. -/
def Dbl.isNaN : Dbl → Bool
  | .nan => true
  | .num _ => false

/-- One `osmosdr::range_t`: start, stop, step. -/
structure range_t where
  start : Dbl
  stop : Dbl
  step : Dbl
deriving DecidableEq

/-- The type `osmosdr::meta_range_t`, a vector of ranges; the default-constructed one is empty. -/
abbrev meta_range_t := List range_t

/-- Frequency ranges are meta-ranges (`osmosdr::freq_range_t`). -/
abbrev freq_range_t := meta_range_t

/-- Gain ranges are meta-ranges (`osmosdr::gain_range_t`). -/
abbrev gain_range_t := meta_range_t

/-- A `std::complex<double>`. -/
abbrev complex_double := Dbl × Dbl

/-- Modelled from the spec: the per-channel caches `_center_freq`, `_gain`, ... are
declared in `osmosdr_sink_c_impl.h`, which is not part of the sources at hand.
The spec calls them "per-channel associative caches keyed by raw index": a
`std::map<size_t, V>`, here a partial function from the logical channel. -/
def CMap (V : Type) : Type := Nat → Option V

/-- The empty map of a freshly constructed sink. -/
def CMap.empty {V : Type} : CMap V := fun _ => none

/-- The value read by `m[k]`: the stored one, or the value-initialised entry
that `operator[]` creates for an absent key. -/
def CMap.get {V : Type} [Inhabited V] (m : CMap V) (k : Nat) : V :=
  (m k).getD default

/-- The map after evaluating `m[k]`: an absent key has received its default entry. -/
def CMap.touch {V : Type} [Inhabited V] (m : CMap V) (k : Nat) : CMap V :=
  fun j => if j = k then some (m.get k) else m j

/-- The map after `m[k] = v`. -/
def CMap.set {V : Type} (m : CMap V) (k : Nat) (v : V) : CMap V :=
  fun j => if j = k then some v else m j

/-! ## The capability interface and the log of backend calls -/

/-- One backend operation invoked through `osmosdr_snk_iface`, with the device
handle it was invoked on and its arguments. -/
inductive Call (Dev : Type) where
  | make (tag : String) (arg : String)
  | get_sample_rates (dev : Dev)
  | set_sample_rate (dev : Dev) (rate : Dbl)
  | get_sample_rate (dev : Dev)
  | get_freq_range (dev : Dev) (chan : Nat)
  | set_center_freq (dev : Dev) (freq : Dbl) (chan : Nat)
  | get_center_freq (dev : Dev) (chan : Nat)
  | set_freq_corr (dev : Dev) (ppm : Dbl) (chan : Nat)
  | get_freq_corr (dev : Dev) (chan : Nat)
  | get_gain_names (dev : Dev) (chan : Nat)
  | get_gain_range (dev : Dev) (chan : Nat)
  | get_gain_range_named (dev : Dev) (name : String) (chan : Nat)
  | set_gain_mode (dev : Dev) (automatic : Bool) (chan : Nat)
  | get_gain_mode (dev : Dev) (chan : Nat)
  | set_gain (dev : Dev) (gain : Dbl) (chan : Nat)
  | set_gain_named (dev : Dev) (gain : Dbl) (name : String) (chan : Nat)
  | get_gain (dev : Dev) (chan : Nat)
  | get_gain_named (dev : Dev) (name : String) (chan : Nat)
  | set_if_gain (dev : Dev) (gain : Dbl) (chan : Nat)
  | set_bb_gain (dev : Dev) (gain : Dbl) (chan : Nat)
  | get_antennas (dev : Dev) (chan : Nat)
  | set_antenna (dev : Dev) (antenna : String) (chan : Nat)
  | get_antenna (dev : Dev) (chan : Nat)
  | set_dc_offset (dev : Dev) (offset : complex_double) (chan : Nat)
  | set_iq_balance (dev : Dev) (balance : complex_double) (chan : Nat)
  | set_bandwidth (dev : Dev) (bandwidth : Dbl) (chan : Nat)
  | get_bandwidth (dev : Dev) (chan : Nat)
  | get_bandwidth_range (dev : Dev) (chan : Nat)
deriving DecidableEq

/-- The result of a backend operation on the hardware state `W`: a value or a
raised error, and the hardware state afterwards. -/
abbrev Op (W α : Type) : Type := W → Except String α × W

/-- The class `osmosdr_snk_iface` (declared outside the sources at hand): the
virtual operations of a backend, taken as parameters. `Dev` is the type of the
handles `osmosdr_snk_iface *`. The channel count of a device is a fixed
property of the handle; every other operation reads and changes the hardware
state and may raise. -/
structure osmosdr_snk_iface (Dev W : Type) where
  get_num_channels : Dev → Nat
  get_sample_rates : Dev → Op W meta_range_t
  set_sample_rate : Dev → Dbl → Op W Dbl
  get_sample_rate : Dev → Op W Dbl
  get_freq_range : Dev → Nat → Op W freq_range_t
  set_center_freq : Dev → Dbl → Nat → Op W Dbl
  get_center_freq : Dev → Nat → Op W Dbl
  set_freq_corr : Dev → Dbl → Nat → Op W Dbl
  get_freq_corr : Dev → Nat → Op W Dbl
  get_gain_names : Dev → Nat → Op W (List String)
  get_gain_range : Dev → Nat → Op W gain_range_t
  get_gain_range_named : Dev → String → Nat → Op W gain_range_t
  set_gain_mode : Dev → Bool → Nat → Op W Bool
  get_gain_mode : Dev → Nat → Op W Bool
  set_gain : Dev → Dbl → Nat → Op W Dbl
  set_gain_named : Dev → Dbl → String → Nat → Op W Dbl
  get_gain : Dev → Nat → Op W Dbl
  get_gain_named : Dev → String → Nat → Op W Dbl
  set_if_gain : Dev → Dbl → Nat → Op W Dbl
  set_bb_gain : Dev → Dbl → Nat → Op W Dbl
  get_antennas : Dev → Nat → Op W (List String)
  set_antenna : Dev → String → Nat → Op W String
  get_antenna : Dev → Nat → Op W String
  set_dc_offset : Dev → complex_double → Nat → Op W Unit
  set_iq_balance : Dev → complex_double → Nat → Op W Unit
  set_bandwidth : Dev → Dbl → Nat → Op W Dbl
  get_bandwidth : Dev → Nat → Op W Dbl
  get_bandwidth_range : Dev → Nat → Op W freq_range_t

/-! ## The sink -/

/-- A logical input stream wired by `connect` in the constructor: to channel
`i` of a backend block, or to a throttle feeding a null sink. -/
inductive Wire (Dev : Type) where
  | dev (channel : Nat) (block : Dev) (i : Nat)
  | pad (channel : Nat)
deriving DecidableEq

/-- The members of `osmosdr_sink_c_impl`, the streams wired by its
constructor, and two ghost fields: the hardware state and the backend
operations invoked so far (oldest first). -/
structure osmosdr_sink_c_impl (Dev W : Type) where
  _devs : List Dev
  _sample_rate : Dbl
  _center_freq : CMap Dbl
  _freq_corr : CMap Dbl
  _gain_mode : CMap Bool
  _gain : CMap Dbl
  _if_gain : CMap Dbl
  _bb_gain : CMap Dbl
  _antenna : CMap String
  _bandwidth : CMap Dbl
  wired : List (Wire Dev)
  world : W
  log : List (Call Dev)

namespace osmosdr_sink_c_impl

variable {Dev W : Type}

/-- A virtual call `dev->op(...)`: run the operation on the hardware state and
record it in the log. -/
def invoke {α : Type} (s : osmosdr_sink_c_impl Dev W) (c : Call Dev) (op : Op W α) :
    Except String α × osmosdr_sink_c_impl Dev W :=
  ((op s.world).1, { s with world := (op s.world).2, log := s.log ++ [c] })

/-- The inner loop `for (dev_chan = 0; dev_chan < dev->get_num_channels(); dev_chan++)
if ( chan == channel++ ) return ...`, with `remaining` iterations to go: either
the matching local channel, or the counter `channel` after the loop. -/
def scanDev (chan : Nat) : (remaining dev_chan channel : Nat) → Nat ⊕ Nat
  | 0, _, channel => Sum.inr channel
  | remaining + 1, dev_chan, channel =>
    if chan = channel then Sum.inl dev_chan
    else scanDev chan remaining (dev_chan + 1) (channel + 1)

/-- The loop `BOOST_FOREACH( osmosdr_snk_iface *dev, _devs )` around `scanDev`,
from the device at position `pos` of `_devs` on: the position, the handle and
the local channel at which `chan == channel++` first holds. -/
def resolveFrom (I : osmosdr_snk_iface Dev W) (chan : Nat) :
    List Dev → (pos channel : Nat) → Option (Nat × Dev × Nat)
  | [], _, _ => none
  | dev :: rest, pos, channel =>
    match scanDev chan (I.get_num_channels dev) 0 channel with
    | Sum.inl dev_chan => some (pos, dev, dev_chan)
    | Sum.inr channel' => resolveFrom I chan rest (pos + 1) channel'

/-- The resolution loop shared by the per-channel operations, started with
`size_t channel = 0`. -/
def resolve (I : osmosdr_snk_iface Dev W) (devs : List Dev) (chan : Nat) :
    Option (Nat × Dev × Nat) :=
  resolveFrom I chan devs 0 0

/-- The method `get_num_channels`. -/
def get_num_channels (I : osmosdr_snk_iface Dev W) (s : osmosdr_sink_c_impl Dev W) : Nat :=
  s._devs.foldl (fun channels dev => channels + I.get_num_channels dev) 0

/-- The method `get_sample_rates`. -/
def get_sample_rates (I : osmosdr_snk_iface Dev W) (s : osmosdr_sink_c_impl Dev W) :
    Except String meta_range_t × osmosdr_sink_c_impl Dev W :=
  match s._devs with
  | dev0 :: _ => s.invoke (Call.get_sample_rates dev0) (I.get_sample_rates dev0)
  | [] => (Except.ok [], s)

/-- The loop `BOOST_FOREACH( dev, _devs ) sample_rate = dev->set_sample_rate(rate);`
of `set_sample_rate`: the last value of the local `sample_rate`, or the error
raised by a device (the devices after it are not reached). -/
def set_sample_rate_loop (I : osmosdr_snk_iface Dev W) (rate : Dbl) :
    List Dev → Dbl → osmosdr_sink_c_impl Dev W → Except String Dbl × osmosdr_sink_c_impl Dev W
  | [], sample_rate, s => (Except.ok sample_rate, s)
  | dev :: rest, _, s =>
    match s.invoke (Call.set_sample_rate dev rate) (I.set_sample_rate dev rate) with
    | (Except.ok sample_rate, s1) => set_sample_rate_loop I rate rest sample_rate s1
    | (Except.error e, s1) => (Except.error e, s1)

/-- The method `set_sample_rate`. -/
def set_sample_rate (I : osmosdr_snk_iface Dev W) (rate : Dbl) (s : osmosdr_sink_c_impl Dev W) :
    Except String Dbl × osmosdr_sink_c_impl Dev W :=
  let sample_rate : Dbl := 0
  if Dbl.ne s._sample_rate rate then
    match set_sample_rate_loop I rate s._devs sample_rate s with
    | (Except.ok sample_rate, s1) => (Except.ok sample_rate, { s1 with _sample_rate := sample_rate })
    | (Except.error e, s1) => (Except.error e, s1)
  else (Except.ok sample_rate, s)

/-- The method `get_sample_rate`. -/
def get_sample_rate (I : osmosdr_snk_iface Dev W) (s : osmosdr_sink_c_impl Dev W) :
    Except String Dbl × osmosdr_sink_c_impl Dev W :=
  let sample_rate : Dbl := 0
  match s._devs with
  | dev0 :: _ => s.invoke (Call.get_sample_rate dev0) (I.get_sample_rate dev0)
  | [] => (Except.ok sample_rate, s)

/-! ### Per-channel getters

Each one is the resolution loop with `return dev->get_...( dev_chan )` at the
match and the neutral value after the loops. -/

/-- The method `get_freq_range( chan )`. -/
def get_freq_range (I : osmosdr_snk_iface Dev W) (chan : Nat) (s : osmosdr_sink_c_impl Dev W) :
    Except String freq_range_t × osmosdr_sink_c_impl Dev W :=
  match resolve I s._devs chan with
  | some (_, dev, dev_chan) => s.invoke (Call.get_freq_range dev dev_chan) (I.get_freq_range dev dev_chan)
  | none => (Except.ok [], s)

/-- The method `get_center_freq( chan )`. -/
def get_center_freq (I : osmosdr_snk_iface Dev W) (chan : Nat) (s : osmosdr_sink_c_impl Dev W) :
    Except String Dbl × osmosdr_sink_c_impl Dev W :=
  match resolve I s._devs chan with
  | some (_, dev, dev_chan) => s.invoke (Call.get_center_freq dev dev_chan) (I.get_center_freq dev dev_chan)
  | none => (Except.ok 0, s)

/-- The method `get_freq_corr( chan )`. -/
def get_freq_corr (I : osmosdr_snk_iface Dev W) (chan : Nat) (s : osmosdr_sink_c_impl Dev W) :
    Except String Dbl × osmosdr_sink_c_impl Dev W :=
  match resolve I s._devs chan with
  | some (_, dev, dev_chan) => s.invoke (Call.get_freq_corr dev dev_chan) (I.get_freq_corr dev dev_chan)
  | none => (Except.ok 0, s)

/-- The method `get_gain_names( chan )`. -/
def get_gain_names (I : osmosdr_snk_iface Dev W) (chan : Nat) (s : osmosdr_sink_c_impl Dev W) :
    Except String (List String) × osmosdr_sink_c_impl Dev W :=
  match resolve I s._devs chan with
  | some (_, dev, dev_chan) => s.invoke (Call.get_gain_names dev dev_chan) (I.get_gain_names dev dev_chan)
  | none => (Except.ok [], s)

/-- The method `get_gain_range( chan )`. -/
def get_gain_range (I : osmosdr_snk_iface Dev W) (chan : Nat) (s : osmosdr_sink_c_impl Dev W) :
    Except String gain_range_t × osmosdr_sink_c_impl Dev W :=
  match resolve I s._devs chan with
  | some (_, dev, dev_chan) => s.invoke (Call.get_gain_range dev dev_chan) (I.get_gain_range dev dev_chan)
  | none => (Except.ok [], s)

/-- The method `get_gain_range( name, chan )`. -/
def get_gain_range_named (I : osmosdr_snk_iface Dev W) (name : String) (chan : Nat) (s : osmosdr_sink_c_impl Dev W) :
    Except String gain_range_t × osmosdr_sink_c_impl Dev W :=
  match resolve I s._devs chan with
  | some (_, dev, dev_chan) => s.invoke (Call.get_gain_range_named dev name dev_chan) (I.get_gain_range_named dev name dev_chan)
  | none => (Except.ok [], s)

/-- The method `get_gain_mode( chan )`. -/
def get_gain_mode (I : osmosdr_snk_iface Dev W) (chan : Nat) (s : osmosdr_sink_c_impl Dev W) :
    Except String Bool × osmosdr_sink_c_impl Dev W :=
  match resolve I s._devs chan with
  | some (_, dev, dev_chan) => s.invoke (Call.get_gain_mode dev dev_chan) (I.get_gain_mode dev dev_chan)
  | none => (Except.ok false, s)

/-- The method `get_gain( chan )`. -/
def get_gain (I : osmosdr_snk_iface Dev W) (chan : Nat) (s : osmosdr_sink_c_impl Dev W) :
    Except String Dbl × osmosdr_sink_c_impl Dev W :=
  match resolve I s._devs chan with
  | some (_, dev, dev_chan) => s.invoke (Call.get_gain dev dev_chan) (I.get_gain dev dev_chan)
  | none => (Except.ok 0, s)

/-- The method `get_gain( name, chan )`. -/
def get_gain_named (I : osmosdr_snk_iface Dev W) (name : String) (chan : Nat) (s : osmosdr_sink_c_impl Dev W) :
    Except String Dbl × osmosdr_sink_c_impl Dev W :=
  match resolve I s._devs chan with
  | some (_, dev, dev_chan) => s.invoke (Call.get_gain_named dev name dev_chan) (I.get_gain_named dev name dev_chan)
  | none => (Except.ok 0, s)

/-- The method `get_antennas( chan )`. -/
def get_antennas (I : osmosdr_snk_iface Dev W) (chan : Nat) (s : osmosdr_sink_c_impl Dev W) :
    Except String (List String) × osmosdr_sink_c_impl Dev W :=
  match resolve I s._devs chan with
  | some (_, dev, dev_chan) => s.invoke (Call.get_antennas dev dev_chan) (I.get_antennas dev dev_chan)
  | none => (Except.ok [], s)

/-- The method `get_antenna( chan )`. -/
def get_antenna (I : osmosdr_snk_iface Dev W) (chan : Nat) (s : osmosdr_sink_c_impl Dev W) :
    Except String String × osmosdr_sink_c_impl Dev W :=
  match resolve I s._devs chan with
  | some (_, dev, dev_chan) => s.invoke (Call.get_antenna dev dev_chan) (I.get_antenna dev dev_chan)
  | none => (Except.ok "", s)

/-- The method `get_bandwidth( chan )`. -/
def get_bandwidth (I : osmosdr_snk_iface Dev W) (chan : Nat) (s : osmosdr_sink_c_impl Dev W) :
    Except String Dbl × osmosdr_sink_c_impl Dev W :=
  match resolve I s._devs chan with
  | some (_, dev, dev_chan) => s.invoke (Call.get_bandwidth dev dev_chan) (I.get_bandwidth dev dev_chan)
  | none => (Except.ok 0, s)

/-- The method `get_bandwidth_range( chan )`. -/
def get_bandwidth_range (I : osmosdr_snk_iface Dev W) (chan : Nat) (s : osmosdr_sink_c_impl Dev W) :
    Except String freq_range_t × osmosdr_sink_c_impl Dev W :=
  match resolve I s._devs chan with
  | some (_, dev, dev_chan) => s.invoke (Call.get_bandwidth_range dev dev_chan) (I.get_bandwidth_range dev dev_chan)
  | none => (Except.ok [], s)

/-! ### Per-channel cached setters

`_x[ chan ] != v` first creates the entry of an absent key (`CMap.touch`), then
compares; on a difference the cache takes the requested value before the
backend is called. -/

/-- The method `set_center_freq( freq, chan )`. -/
def set_center_freq (I : osmosdr_snk_iface Dev W) (freq : Dbl) (chan : Nat) (s : osmosdr_sink_c_impl Dev W) :
    Except String Dbl × osmosdr_sink_c_impl Dev W :=
  match resolve I s._devs chan with
  | some (_, dev, dev_chan) =>
    if Dbl.ne (s._center_freq.get chan) freq then
      { s with _center_freq := (s._center_freq.touch chan).set chan freq }.invoke
        (Call.set_center_freq dev freq dev_chan) (I.set_center_freq dev freq dev_chan)
    else (Except.ok (s._center_freq.get chan), { s with _center_freq := s._center_freq.touch chan })
  | none => (Except.ok 0, s)

/-- The method `set_freq_corr( ppm, chan )`. -/
def set_freq_corr (I : osmosdr_snk_iface Dev W) (ppm : Dbl) (chan : Nat) (s : osmosdr_sink_c_impl Dev W) :
    Except String Dbl × osmosdr_sink_c_impl Dev W :=
  match resolve I s._devs chan with
  | some (_, dev, dev_chan) =>
    if Dbl.ne (s._freq_corr.get chan) ppm then
      { s with _freq_corr := (s._freq_corr.touch chan).set chan ppm }.invoke
        (Call.set_freq_corr dev ppm dev_chan) (I.set_freq_corr dev ppm dev_chan)
    else (Except.ok (s._freq_corr.get chan), { s with _freq_corr := s._freq_corr.touch chan })
  | none => (Except.ok 0, s)

/-- The method `set_gain( gain, chan )`. -/
def set_gain (I : osmosdr_snk_iface Dev W) (gain : Dbl) (chan : Nat) (s : osmosdr_sink_c_impl Dev W) :
    Except String Dbl × osmosdr_sink_c_impl Dev W :=
  match resolve I s._devs chan with
  | some (_, dev, dev_chan) =>
    if Dbl.ne (s._gain.get chan) gain then
      { s with _gain := (s._gain.touch chan).set chan gain }.invoke
        (Call.set_gain dev gain dev_chan) (I.set_gain dev gain dev_chan)
    else (Except.ok (s._gain.get chan), { s with _gain := s._gain.touch chan })
  | none => (Except.ok 0, s)

/-- The method `set_if_gain( gain, chan )`. -/
def set_if_gain (I : osmosdr_snk_iface Dev W) (gain : Dbl) (chan : Nat) (s : osmosdr_sink_c_impl Dev W) :
    Except String Dbl × osmosdr_sink_c_impl Dev W :=
  match resolve I s._devs chan with
  | some (_, dev, dev_chan) =>
    if Dbl.ne (s._if_gain.get chan) gain then
      { s with _if_gain := (s._if_gain.touch chan).set chan gain }.invoke
        (Call.set_if_gain dev gain dev_chan) (I.set_if_gain dev gain dev_chan)
    else (Except.ok (s._if_gain.get chan), { s with _if_gain := s._if_gain.touch chan })
  | none => (Except.ok 0, s)

/-- The method `set_bb_gain( gain, chan )`. -/
def set_bb_gain (I : osmosdr_snk_iface Dev W) (gain : Dbl) (chan : Nat) (s : osmosdr_sink_c_impl Dev W) :
    Except String Dbl × osmosdr_sink_c_impl Dev W :=
  match resolve I s._devs chan with
  | some (_, dev, dev_chan) =>
    if Dbl.ne (s._bb_gain.get chan) gain then
      { s with _bb_gain := (s._bb_gain.touch chan).set chan gain }.invoke
        (Call.set_bb_gain dev gain dev_chan) (I.set_bb_gain dev gain dev_chan)
    else (Except.ok (s._bb_gain.get chan), { s with _bb_gain := s._bb_gain.touch chan })
  | none => (Except.ok 0, s)

/-- The method `set_antenna( antenna, chan )`. -/
def set_antenna (I : osmosdr_snk_iface Dev W) (antenna : String) (chan : Nat) (s : osmosdr_sink_c_impl Dev W) :
    Except String String × osmosdr_sink_c_impl Dev W :=
  match resolve I s._devs chan with
  | some (_, dev, dev_chan) =>
    if s._antenna.get chan != antenna then
      { s with _antenna := (s._antenna.touch chan).set chan antenna }.invoke
        (Call.set_antenna dev antenna dev_chan) (I.set_antenna dev antenna dev_chan)
    else (Except.ok (s._antenna.get chan), { s with _antenna := s._antenna.touch chan })
  | none => (Except.ok "", s)

/-- The method `set_bandwidth( bandwidth, chan )`: a request of zero goes to the
backend whatever the cache holds. -/
def set_bandwidth (I : osmosdr_snk_iface Dev W) (bandwidth : Dbl) (chan : Nat)
    (s : osmosdr_sink_c_impl Dev W) : Except String Dbl × osmosdr_sink_c_impl Dev W :=
  match resolve I s._devs chan with
  | some (_, dev, dev_chan) =>
    if Dbl.ne (s._bandwidth.get chan) bandwidth || !(Dbl.ne 0 bandwidth) then
      { s with _bandwidth := (s._bandwidth.touch chan).set chan bandwidth }.invoke
        (Call.set_bandwidth dev bandwidth dev_chan) (I.set_bandwidth dev bandwidth dev_chan)
    else (Except.ok (s._bandwidth.get chan), { s with _bandwidth := s._bandwidth.touch chan })
  | none => (Except.ok 0, s)

/-- The method `set_gain_mode( automatic, chan )`: after the backend has taken
the mode, a switch to manual sends the cached gain `_gain[ chan ]` again. -/
def set_gain_mode (I : osmosdr_snk_iface Dev W) (automatic : Bool) (chan : Nat)
    (s : osmosdr_sink_c_impl Dev W) : Except String Bool × osmosdr_sink_c_impl Dev W :=
  match resolve I s._devs chan with
  | some (_, dev, dev_chan) =>
    if s._gain_mode.get chan != automatic then
      match { s with _gain_mode := (s._gain_mode.touch chan).set chan automatic }.invoke
          (Call.set_gain_mode dev automatic dev_chan) (I.set_gain_mode dev automatic dev_chan) with
      | (Except.ok mode, s1) =>
        if !automatic then
          match { s1 with _gain := s1._gain.touch chan }.invoke
              (Call.set_gain dev (s1._gain.get chan) dev_chan)
              (I.set_gain dev (s1._gain.get chan) dev_chan) with
          | (Except.ok _, s2) => (Except.ok mode, s2)
          | (Except.error e, s2) => (Except.error e, s2)
        else (Except.ok mode, s1)
      | (Except.error e, s1) => (Except.error e, s1)
    else (Except.ok (s._gain_mode.get chan), { s with _gain_mode := s._gain_mode.touch chan })
  | none => (Except.ok false, s)

/-- The method `set_gain( gain, name, chan )`: no cache is involved. -/
def set_gain_named (I : osmosdr_snk_iface Dev W) (gain : Dbl) (name : String) (chan : Nat)
    (s : osmosdr_sink_c_impl Dev W) : Except String Dbl × osmosdr_sink_c_impl Dev W :=
  match resolve I s._devs chan with
  | some (_, dev, dev_chan) =>
    s.invoke (Call.set_gain_named dev gain name dev_chan) (I.set_gain_named dev gain name dev_chan)
  | none => (Except.ok 0, s)

/-! ### Setters whose loops do not return at the match -/

/-- The inner loop of `set_dc_offset` and `set_iq_balance`: at `chan == channel++`
the backend is called (`body dev_chan`) and the loop goes on; an error raised
by the backend leaves the loops. -/
def scanDevAll (chan : Nat)
    (body : Nat → osmosdr_sink_c_impl Dev W → Except String Unit × osmosdr_sink_c_impl Dev W) :
    (remaining dev_chan channel : Nat) → osmosdr_sink_c_impl Dev W →
      Except String Nat × osmosdr_sink_c_impl Dev W
  | 0, _, channel, s => (Except.ok channel, s)
  | remaining + 1, dev_chan, channel, s =>
    if chan = channel then
      match body dev_chan s with
      | (Except.ok _, s1) => scanDevAll chan body remaining (dev_chan + 1) (channel + 1) s1
      | (Except.error e, s1) => (Except.error e, s1)
    else scanDevAll chan body remaining (dev_chan + 1) (channel + 1) s

/-- The outer loop of `set_dc_offset` and `set_iq_balance` over the devices. -/
def forAllDevs (I : osmosdr_snk_iface Dev W) (chan : Nat)
    (body : Dev → Nat → osmosdr_sink_c_impl Dev W → Except String Unit × osmosdr_sink_c_impl Dev W) :
    List Dev → (channel : Nat) → osmosdr_sink_c_impl Dev W →
      Except String Unit × osmosdr_sink_c_impl Dev W
  | [], _, s => (Except.ok (), s)
  | dev :: rest, channel, s =>
    match scanDevAll chan (body dev) (I.get_num_channels dev) 0 channel s with
    | (Except.ok channel', s1) => forAllDevs I chan body rest channel' s1
    | (Except.error e, s1) => (Except.error e, s1)

/-- The method `set_dc_offset( offset, chan )`. -/
def set_dc_offset (I : osmosdr_snk_iface Dev W) (offset : complex_double) (chan : Nat)
    (s : osmosdr_sink_c_impl Dev W) : Except String Unit × osmosdr_sink_c_impl Dev W :=
  forAllDevs I chan
    (fun dev dev_chan s1 =>
      s1.invoke (Call.set_dc_offset dev offset dev_chan) (I.set_dc_offset dev offset dev_chan))
    s._devs 0 s

/-- The method `set_iq_balance( balance, chan )`. -/
def set_iq_balance (I : osmosdr_snk_iface Dev W) (balance : complex_double) (chan : Nat)
    (s : osmosdr_sink_c_impl Dev W) : Except String Unit × osmosdr_sink_c_impl Dev W :=
  forAllDevs I chan
    (fun dev dev_chan s1 =>
      s1.invoke (Call.set_iq_balance dev balance dev_chan) (I.set_iq_balance dev balance dev_chan))
    s._devs 0 s

end osmosdr_sink_c_impl

/-! ## Construction -/

/-- A `dict_t` of `osmosdr_arg_helpers.h`: the key/value pairs of one argument group. -/
structure dict_t where
  entries : List (String × String)

/-- The member `dict.count( key )` of a `std::map`: 1 when the key is present, else 0. -/
def dict_t.count (dict : dict_t) (key : String) : Nat :=
  if dict.entries.any (fun entry => entry.1 == key) then 1 else 0

/-- What the constructor takes from outside the sources at hand: the build
switches, the argument helpers of `osmosdr_arg_helpers.h`, the stream count of
the input signature made by `args_to_io_signature( args )`, and for each backend
its discovery function and its factory. A factory returns a shared pointer
(`none` is the null pointer) or raises. -/
structure BuildConfig (Dev W : Type) where
  ENABLE_UHD : Bool
  ENABLE_HACKRF : Bool
  ENABLE_BLADERF : Bool
  args_to_vector : String → List String
  params_to_dict : String → dict_t
  max_streams : String → Int
  uhd_get_devices : W → List String
  hackrf_get_devices : W → List String
  bladerf_get_devices : W → List String
  make_uhd_sink_c : String → Op W (Option Dev)
  make_hackrf_sink_c : String → Op W (Option Dev)
  make_bladerf_sink_c : String → Op W (Option Dev)

namespace osmosdr_sink_c_impl

variable {Dev W : Type}

/-- The vector `dev_types` of the constructor, in the order of its `push_back`s. -/
def dev_types (B : BuildConfig Dev W) : List String :=
  (if B.ENABLE_UHD then ["uhd"] else []) ++
  (if B.ENABLE_HACKRF then ["hackrf"] else []) ++
  (if B.ENABLE_BLADERF then ["bladerf"] else [])

/-- The first loop of the constructor: some argument group has a key that is a
compiled-in backend tag. -/
def device_specified (B : BuildConfig Dev W) (arg_list : List String) : Bool :=
  arg_list.any (fun arg => (dev_types B).any (fun dev_type => (B.params_to_dict arg).count dev_type != 0))

/-- The vector `dev_list` of the constructor: the discovered devices, in the
order uhd, bladerf, hackrf of the source. -/
def dev_list (B : BuildConfig Dev W) (w : W) : List String :=
  (if B.ENABLE_UHD then B.uhd_get_devices w else []) ++
  (if B.ENABLE_BLADERF then B.bladerf_get_devices w else []) ++
  (if B.ENABLE_HACKRF then B.hackrf_get_devices w else [])

/-- One block `#ifdef ENABLE_X  if ( dict.count("x") ) { sink = make_x_sink_c( arg );
block = sink; iface = sink.get(); }  #endif` of the constructor, on the pair
`(iface, block)`. -/
def make_if_tagged (enabled : Bool) (tag : String) (make : String → Op W (Option Dev))
    (dict : dict_t) (arg : String) (iface_block : Option Dev × Option Dev)
    (s : osmosdr_sink_c_impl Dev W) :
    Except String (Option Dev × Option Dev) × osmosdr_sink_c_impl Dev W :=
  if enabled && dict.count tag != 0 then
    match s.invoke (Call.make tag arg) (make arg) with
    | (Except.ok sink, s1) => (Except.ok (sink, sink), s1)
    | (Except.error e, s1) => (Except.error e, s1)
  else (Except.ok iface_block, s)

/-- The loop `for (i = 0; i < iface->get_num_channels(); i++) connect(self(), channel++, block, i);`
with `remaining` iterations to go. The method `connect` belongs to the GNU Radio
runtime: it is taken to wire the stream and to return. -/
def connect_channels (block : Dev) :
    (remaining i channel : Nat) → osmosdr_sink_c_impl Dev W → Nat × osmosdr_sink_c_impl Dev W
  | 0, _, channel, s => (channel, s)
  | remaining + 1, i, channel, s =>
    connect_channels block remaining (i + 1) (channel + 1)
      { s with wired := s.wired ++ [Wire.dev channel block i] }

/-- The body of the loop over `arg_list` in the constructor, for one argument
group: the counter `channel` afterwards, together with the error if one was raised. -/
def assemble_arg (I : osmosdr_snk_iface Dev W) (B : BuildConfig Dev W) (arg : String)
    (channel : Nat) (s : osmosdr_sink_c_impl Dev W) :
    Except String Unit × Nat × osmosdr_sink_c_impl Dev W :=
  let dict := B.params_to_dict arg
  match make_if_tagged B.ENABLE_UHD "uhd" B.make_uhd_sink_c dict arg (none, none) s with
  | (Except.error e, s1) => (Except.error e, channel, s1)
  | (Except.ok ib1, s1) =>
  match make_if_tagged B.ENABLE_HACKRF "hackrf" B.make_hackrf_sink_c dict arg ib1 s1 with
  | (Except.error e, s2) => (Except.error e, channel, s2)
  | (Except.ok ib2, s2) =>
  match make_if_tagged B.ENABLE_BLADERF "bladerf" B.make_bladerf_sink_c dict arg ib2 s2 with
  | (Except.error e, s3) => (Except.error e, channel, s3)
  | (Except.ok (some iface, some block), s3) =>
    let r := connect_channels block (I.get_num_channels iface) 0 channel
      { s3 with _devs := s3._devs ++ [iface] }
    (Except.ok (), r.1, r.2)
  | (Except.ok (none, none), s3) => (Except.ok (), channel, s3)
  | (Except.ok _, s3) => (Except.error "Eitner iface or block are NULL.", channel, s3)

/-- The loop `BOOST_FOREACH(std::string arg, arg_list)` that assembles the devices. -/
def assemble (I : osmosdr_snk_iface Dev W) (B : BuildConfig Dev W) :
    List String → Nat → osmosdr_sink_c_impl Dev W →
      Except String Unit × Nat × osmosdr_sink_c_impl Dev W
  | [], channel, s => (Except.ok (), channel, s)
  | arg :: rest, channel, s =>
    match assemble_arg I B arg channel s with
    | (Except.ok _, channel', s1) => assemble I B rest channel' s1
    | (Except.error e, channel', s1) => (Except.error e, channel', s1)

/-- The end of the `try` block: the loop over the final `arg_list` and the test
`if (!_devs.size()) throw`. -/
def assemble_all (I : osmosdr_snk_iface Dev W) (B : BuildConfig Dev W) (arg_list : List String)
    (channel : Nat) (s : osmosdr_sink_c_impl Dev W) :
    Except String Unit × Nat × osmosdr_sink_c_impl Dev W :=
  match assemble I B arg_list channel s with
  | (Except.error e, channel', s1) => (Except.error e, channel', s1)
  | (Except.ok _, channel', s1) =>
    if s1._devs.isEmpty then
      (Except.error "No devices specified via device arguments.", channel', s1)
    else (Except.ok (), channel', s1)

/-- The `try` block of the constructor: without an explicitly specified device
the first discovered device becomes an extra argument group, and without any
discovered device an error is raised. -/
def try_block (I : osmosdr_snk_iface Dev W) (B : BuildConfig Dev W) (arg_list : List String)
    (channel : Nat) (s : osmosdr_sink_c_impl Dev W) :
    Except String Unit × Nat × osmosdr_sink_c_impl Dev W :=
  if !(device_specified B arg_list) then
    match dev_list B s.world with
    | front :: _ => assemble_all I B (arg_list ++ [front]) channel s
    | [] => (Except.error "No supported devices found to pick from.", channel, s)
  else assemble_all I B arg_list channel s

/-- The loop of the `catch` block: every missing channel is connected to a
throttle and a null sink. -/
def pad_channels :
    (remaining channel : Nat) → osmosdr_sink_c_impl Dev W → Nat × osmosdr_sink_c_impl Dev W
  | 0, channel, s => (channel, s)
  | remaining + 1, channel, s =>
    pad_channels remaining (channel + 1) { s with wired := s.wired ++ [Wire.pad channel] }

/-- The count `missing_chans` of the `catch` block: `max_streams() - channel` is
computed in `size_t`, hence modulo `2^64`. -/
def missing_chans (max_streams : Int) (channel : Nat) : Nat :=
  if max_streams > 0 then ((max_streams - (channel : Int)) % (2 ^ 64 : Int)).toNat else 0

/-- The sink before the body of the constructor runs: `_sample_rate(NAN)`, empty
caches, no device. -/
def init (w : W) : osmosdr_sink_c_impl Dev W :=
  { _devs := [], _sample_rate := Dbl.nan,
    _center_freq := CMap.empty, _freq_corr := CMap.empty, _gain_mode := CMap.empty,
    _gain := CMap.empty, _if_gain := CMap.empty, _bb_gain := CMap.empty,
    _antenna := CMap.empty, _bandwidth := CMap.empty,
    wired := [], world := w, log := [] }

end osmosdr_sink_c_impl

/-- The constructor `osmosdr_sink_c_impl::osmosdr_sink_c_impl( args )` behind
`osmosdr_make_sink_c`, compiled with `WORKAROUND_GR_HIER_BLOCK2_BUG`: the final
value of the local counter `channel` and the constructed sink. An error raised
in the `try` block is caught and the missing channels are padded. -/
def osmosdr_make_sink_c {Dev W : Type} (I : osmosdr_snk_iface Dev W) (B : BuildConfig Dev W)
    (args : String) (w : W) : Nat × osmosdr_sink_c_impl Dev W :=
  match osmosdr_sink_c_impl.try_block I B (B.args_to_vector args) 0
      (osmosdr_sink_c_impl.init w) with
  | (Except.ok _, channel, s) => (channel, s)
  | (Except.error _, channel, s) =>
    osmosdr_sink_c_impl.pad_channels
      (osmosdr_sink_c_impl.missing_chans (B.max_streams args) channel) channel s

/-! ## A concrete backend for the worked examples -/

namespace Demo

/-- A device handle of the examples: an identifier and its channel count. -/
structure Device where
  id : Nat
  channels : Nat
deriving DecidableEq

/-- A backend without hardware state that never raises: a setter answers
`adjust v` for a requested double `v` (the identity for exact hardware), a
device reports its identifier as sample rate, the other getters answer fixed values. -/
def backend (adjust : Dbl → Dbl) : osmosdr_snk_iface Device Unit where
  get_num_channels := fun dev => dev.channels
  get_sample_rates := fun _ w => (Except.ok [], w)
  set_sample_rate := fun _ rate w => (Except.ok (adjust rate), w)
  get_sample_rate := fun dev w => (Except.ok (Dbl.num dev.id), w)
  get_freq_range := fun _ _ w => (Except.ok [], w)
  set_center_freq := fun _ freq _ w => (Except.ok (adjust freq), w)
  get_center_freq := fun _ _ w => (Except.ok 0, w)
  set_freq_corr := fun _ ppm _ w => (Except.ok (adjust ppm), w)
  get_freq_corr := fun _ _ w => (Except.ok 0, w)
  get_gain_names := fun _ _ w => (Except.ok [], w)
  get_gain_range := fun _ _ w => (Except.ok [], w)
  get_gain_range_named := fun _ _ _ w => (Except.ok [], w)
  set_gain_mode := fun _ automatic _ w => (Except.ok automatic, w)
  get_gain_mode := fun _ _ w => (Except.ok false, w)
  set_gain := fun _ gain _ w => (Except.ok (adjust gain), w)
  set_gain_named := fun _ gain _ _ w => (Except.ok (adjust gain), w)
  get_gain := fun _ _ w => (Except.ok 0, w)
  get_gain_named := fun _ _ _ w => (Except.ok 0, w)
  set_if_gain := fun _ gain _ w => (Except.ok (adjust gain), w)
  set_bb_gain := fun _ gain _ w => (Except.ok (adjust gain), w)
  get_antennas := fun _ _ w => (Except.ok [], w)
  set_antenna := fun _ antenna _ w => (Except.ok antenna, w)
  get_antenna := fun _ _ w => (Except.ok "", w)
  set_dc_offset := fun _ _ _ w => (Except.ok (), w)
  set_iq_balance := fun _ _ _ w => (Except.ok (), w)
  set_bandwidth := fun _ bandwidth _ w => (Except.ok (adjust bandwidth), w)
  get_bandwidth := fun _ _ w => (Except.ok 0, w)
  get_bandwidth_range := fun _ _ w => (Except.ok [], w)

/-- Hardware that applies every requested value exactly. -/
def exact : osmosdr_snk_iface Device Unit := backend (fun v => v)

/-- Hardware that supports one value only, 48000, and answers it to every request. -/
def clamped : osmosdr_snk_iface Device Unit := backend (fun _ => Dbl.num 48000)

/-- A one-channel device, as a HackRF. -/
def hackrf0 : Device := { id := 1, channels := 1 }

/-- A two-channel device, as a USRP. -/
def uhd0 : Device := { id := 2, channels := 2 }

/-- A freshly constructed sink over the given devices. -/
def sink (devs : List Device) : osmosdr_sink_c_impl Device Unit :=
  { osmosdr_sink_c_impl.init () with _devs := devs }

/-- A build with all three backends, argument helpers given by their values on
the argument strings of the examples (the empty string has no argument group
and its input signature declares one stream), no discoverable device, and
factories that return `uhd0`, `hackrf0` and a one-channel bladeRF. -/
def config : BuildConfig Device Unit where
  ENABLE_UHD := true
  ENABLE_HACKRF := true
  ENABLE_BLADERF := true
  args_to_vector := fun args =>
    if args = "hackrf=0 uhd=0,nchan=2" then ["hackrf=0", "uhd=0,nchan=2"]
    else if args = "" then [] else [args]
  params_to_dict := fun arg =>
    if arg = "hackrf=0" then { entries := [("hackrf", "0")] }
    else if arg = "uhd=0,nchan=2" then { entries := [("uhd", "0"), ("nchan", "2")] }
    else { entries := [] }
  max_streams := fun args => if args = "hackrf=0 uhd=0,nchan=2" then 3 else 1
  uhd_get_devices := fun _ => []
  hackrf_get_devices := fun _ => []
  bladerf_get_devices := fun _ => []
  make_uhd_sink_c := fun _ w => (Except.ok (some uhd0), w)
  make_hackrf_sink_c := fun _ w => (Except.ok (some hackrf0), w)
  make_bladerf_sink_c := fun _ w => (Except.ok (some { id := 3, channels := 1 }), w)

end Demo

/-! ## Predicates on calls, used to state the properties -/

namespace osmosdr_sink_c_impl

variable {Dev W : Type}

/-- Two consecutive calls of the setter `f` from the sink `s`: the first
invokes no backend operation or exactly the one operation `c`, and the second
invokes none (the log and the hardware state stay as the first call left them). -/
def SecondCallElided {α : Type}
    (f : osmosdr_sink_c_impl Dev W → Except String α × osmosdr_sink_c_impl Dev W)
    (s : osmosdr_sink_c_impl Dev W) (c : Call Dev) : Prop :=
  ((f s).2.log = s.log ∨ (f s).2.log = s.log ++ [c]) ∧
  (f (f s).2).2.log = (f s).2.log ∧ (f (f s).2).2.world = (f s).2.world

/-- The setter call `f` on the sink `s` goes to the backend: it invokes exactly
the operation `c`, returns what the backend operation `op` returns on the
hardware state, and leaves the hardware in the state `op` produces. -/
def GoesToBackend {α : Type}
    (f : osmosdr_sink_c_impl Dev W → Except String α × osmosdr_sink_c_impl Dev W)
    (s : osmosdr_sink_c_impl Dev W) (c : Call Dev) (op : Op W α) : Prop :=
  (f s).1 = (op s.world).1 ∧ (f s).2.world = (op s.world).2 ∧ (f s).2.log = s.log ++ [c]

/-- The call `f` repeated right after itself on the sink `s` returns `v` and
invokes no backend operation. -/
def RepeatReturns {α : Type}
    (f : osmosdr_sink_c_impl Dev W → Except String α × osmosdr_sink_c_impl Dev W)
    (s : osmosdr_sink_c_impl Dev W) (v : α) : Prop :=
  (f (f s).2).1 = Except.ok v ∧ (f (f s).2).2.log = (f s).2.log

end osmosdr_sink_c_impl

/-! ## Further examples and predicates -/

/-- The logical input stream that a `connect` of the constructor has wired. -/
def Wire.channel {Dev : Type} : Wire Dev → Nat
  | Wire.dev channel _ _ => channel
  | Wire.pad channel => channel

/-- The stream is wired to a throttle and a null sink, not to a device. -/
def Wire.isPad {Dev : Type} : Wire Dev → Bool
  | Wire.dev _ _ _ => false
  | Wire.pad _ => true

namespace Demo

/-- Exact hardware with a broken tuner: `set_center_freq` raises. -/
def untunable : osmosdr_snk_iface Device Unit :=
  { exact with set_center_freq := fun _ _ _ w => (Except.error "tuning failed", w) }

/-- The build `config` with one more argument group, `"uhd=0,hackrf=0"`, which
carries the keys of two backends. -/
def two_tags : BuildConfig Device Unit :=
  { config with
    params_to_dict := fun arg =>
      if arg = "uhd=0,hackrf=0" then { entries := [("uhd", "0"), ("hackrf", "0")] }
      else config.params_to_dict arg }

end Demo

namespace osmosdr_sink_c_impl

variable {Dev W : Type}

/-- The kinds of cached settings of the sink. -/
inductive Setting where
  | sample_rate
  | center_freq
  | freq_corr
  | gain_mode
  | gain
  | if_gain
  | bb_gain
  | antenna
  | bandwidth
deriving DecidableEq

/-- A cached value: a double, a boolean or a string. -/
inductive CachedValue where
  | double (v : Dbl)
  | bool (b : Bool)
  | string (t : String)
deriving DecidableEq

/-- The cached value of a setting kind for a logical channel, as the code reads
it with `_x[ chan ]` (an absent entry reads as the default); the sample rate is
one value for all channels. -/
def cached (s : osmosdr_sink_c_impl Dev W) : Setting → Nat → CachedValue
  | Setting.sample_rate, _ => CachedValue.double s._sample_rate
  | Setting.center_freq, c => CachedValue.double (s._center_freq.get c)
  | Setting.freq_corr, c => CachedValue.double (s._freq_corr.get c)
  | Setting.gain_mode, c => CachedValue.bool (s._gain_mode.get c)
  | Setting.gain, c => CachedValue.double (s._gain.get c)
  | Setting.if_gain, c => CachedValue.double (s._if_gain.get c)
  | Setting.bb_gain, c => CachedValue.double (s._bb_gain.get c)
  | Setting.antenna, c => CachedValue.string (s._antenna.get c)
  | Setting.bandwidth, c => CachedValue.double (s._bandwidth.get c)

/-- The call `f` on the sink `s` changes at most the cached value of the kind
`own` at the channel `c`. -/
def ChangesAtMost {β : Type} (f : osmosdr_sink_c_impl Dev W → β × osmosdr_sink_c_impl Dev W)
    (s : osmosdr_sink_c_impl Dev W) (own : Setting) (c : Nat) : Prop :=
  ∀ (kind : Setting) (c1 : Nat), kind ≠ own ∨ c1 ≠ c → cached (f s).2 kind c1 = cached s kind c1

/-- Every cache of `s1` is the cache of `s`, entry by entry, and the cached
sample rates agree. -/
def SameCaches (s s1 : osmosdr_sink_c_impl Dev W) : Prop :=
  s1._sample_rate = s._sample_rate ∧ s1._center_freq = s._center_freq ∧
  s1._freq_corr = s._freq_corr ∧ s1._gain_mode = s._gain_mode ∧ s1._gain = s._gain ∧
  s1._if_gain = s._if_gain ∧ s1._bb_gain = s._bb_gain ∧ s1._antenna = s._antenna ∧
  s1._bandwidth = s._bandwidth

/-- The state that the constructor maintains while it assembles the devices:
the wired streams are the logical channels `0, ..., channel - 1` in order, none
of them is padding, and the caches are as `init` made them. -/
def Assembling (channel : Nat) (s : osmosdr_sink_c_impl Dev W) : Prop :=
  s.wired.map Wire.channel = List.range channel ∧
  (∀ x ∈ s.wired, x.isPad = false) ∧
  SameCaches (init s.world) s

end osmosdr_sink_c_impl

namespace osmosdr_sink_c_impl

variable {Dev W : Type}

/-- The call `f` on the sink `s` is answered from the cache: it returns `v`,
invokes no backend operation and leaves the hardware state alone. -/
def AnsweredFromCache {α : Type}
    (f : osmosdr_sink_c_impl Dev W → Except String α × osmosdr_sink_c_impl Dev W)
    (s : osmosdr_sink_c_impl Dev W) (v : α) : Prop :=
  (f s).1 = Except.ok v ∧ (f s).2.log = s.log ∧ (f s).2.world = s.world

end osmosdr_sink_c_impl

namespace Demo

/-- Exact hardware that cannot be switched to manual gain: `set_gain_mode` raises
for `automatic = false`. -/
def no_manual_gain : osmosdr_snk_iface Device Unit :=
  { exact with
    set_gain_mode := fun _ automatic _ w =>
      if automatic then (Except.ok true, w) else (Except.error "manual gain unsupported", w) }

/-- Exact hardware on which the device with identifier 1 rejects every sample rate. -/
def rate_rejected : osmosdr_snk_iface Device Unit :=
  { exact with
    set_sample_rate := fun dev rate w =>
      if dev.id = 1 then (Except.error "sample rate rejected", w) else (Except.ok rate, w) }

end Demo

namespace osmosdr_sink_c_impl

variable {Dev W : Type}

end osmosdr_sink_c_impl

/-! ## Channel resolution -/

namespace osmosdr_sink_c_impl

variable {Dev W : Type}

theorem scanDev_eq (chan : Nat) : ∀ (remaining dev_chan channel : Nat), channel ≤ chan →
    scanDev chan remaining dev_chan channel =
      if chan < channel + remaining then Sum.inl (dev_chan + (chan - channel))
      else Sum.inr (channel + remaining) := by
  intro remaining
  induction remaining with
  | zero =>
    intro dev_chan channel h
    have h0 : ¬ chan < channel + 0 := by omega
    rw [if_neg h0]; rfl
  | succ r ih =>
    intro dev_chan channel h
    unfold scanDev
    by_cases hc : chan = channel
    · subst hc; simp
    · have h1 : channel + 1 ≤ chan := by omega
      rw [if_neg hc, ih (dev_chan + 1) (channel + 1) h1]
      by_cases h2 : chan < channel + 1 + r
      · have h3 : chan < channel + (r + 1) := by omega
        rw [if_pos h2, if_pos h3]
        congr 1; omega
      · have h3 : ¬ chan < channel + (r + 1) := by omega
        rw [if_neg h2, if_neg h3]
        congr 1; omega

theorem foldl_channels (I : osmosdr_snk_iface Dev W) : ∀ (devs : List Dev) (a : Nat),
    devs.foldl (fun channels dev => channels + I.get_num_channels dev) a =
      a + (devs.map I.get_num_channels).sum := by
  intro devs
  induction devs with
  | nil => intro a; simp
  | cons d rest ih => intro a; simp [List.foldl, ih]; omega

theorem get_num_channels_eq_sum (I : osmosdr_snk_iface Dev W) (s : osmosdr_sink_c_impl Dev W) :
    get_num_channels I s = (s._devs.map I.get_num_channels).sum := by
  simp [get_num_channels, foldl_channels]

theorem resolveFrom_hit (I : osmosdr_snk_iface Dev W) (dev : Dev) (post : List Dev) (dc : Nat)
    (hdc : dc < I.get_num_channels dev) : ∀ (pre : List Dev) (pos channel : Nat),
    resolveFrom I (channel + (pre.map I.get_num_channels).sum + dc) (pre ++ dev :: post) pos channel =
      some (pos + pre.length, dev, dc) := by
  intro pre
  induction pre with
  | nil =>
    intro pos channel
    simp only [List.map_nil, List.sum_nil, List.nil_append, resolveFrom, List.length_nil]
    have h1 : channel ≤ channel + 0 + dc := by omega
    have h2 : channel + 0 + dc < channel + I.get_num_channels dev := by omega
    rw [scanDev_eq _ _ _ _ h1, if_pos h2]
    have h3 : 0 + (channel + 0 + dc - channel) = dc := by omega
    simp [h3]
  | cons d pre ih =>
    intro pos channel
    simp only [List.map_cons, List.sum_cons, List.cons_append, resolveFrom, List.length_cons]
    have h1 : channel ≤ channel + (I.get_num_channels d + (pre.map I.get_num_channels).sum) + dc := by
      omega
    have h2 : ¬ channel + (I.get_num_channels d + (pre.map I.get_num_channels).sum) + dc <
        channel + I.get_num_channels d := by omega
    rw [scanDev_eq _ _ _ _ h1, if_neg h2]
    have h := ih (pos + 1) (channel + I.get_num_channels d)
    have e : channel + (I.get_num_channels d + (pre.map I.get_num_channels).sum) + dc =
        channel + I.get_num_channels d + (pre.map I.get_num_channels).sum + dc := by omega
    have e2 : pos + 1 + pre.length = pos + (pre.length + 1) := by omega
    simp only [e]
    rw [← e2]
    exact h

theorem resolveFrom_none (I : osmosdr_snk_iface Dev W) (chan : Nat) : ∀ (devs : List Dev) (pos channel : Nat),
    channel + (devs.map I.get_num_channels).sum ≤ chan →
    resolveFrom I chan devs pos channel = none := by
  intro devs
  induction devs with
  | nil => intro pos channel _; rfl
  | cons d rest ih =>
    intro pos channel h
    simp only [List.map_cons, List.sum_cons] at h
    simp only [resolveFrom]
    have h1 : channel ≤ chan := by omega
    have h2 : ¬ chan < channel + I.get_num_channels d := by omega
    rw [scanDev_eq _ _ _ _ h1, if_neg h2]
    exact ih _ _ (by omega)

theorem split_channel (I : osmosdr_snk_iface Dev W) : ∀ (devs : List Dev) (c : Nat),
    c < (devs.map I.get_num_channels).sum →
    ∃ pre dev post dc, devs = pre ++ dev :: post ∧ dc < I.get_num_channels dev ∧
      c = (pre.map I.get_num_channels).sum + dc := by
  intro devs
  induction devs with
  | nil => intro c h; simp at h
  | cons d rest ih =>
    intro c h
    simp only [List.map_cons, List.sum_cons] at h
    by_cases hc : c < I.get_num_channels d
    · exact ⟨[], d, rest, c, by simp, hc, by simp⟩
    · obtain ⟨pre, dev, post, dc, h1, h2, h3⟩ := ih (c - I.get_num_channels d) (by omega)
      refine ⟨d :: pre, dev, post, dc, by simp [h1], h2, ?_⟩
      simp only [List.map_cons, List.sum_cons]; omega

theorem resolve_of_lt (I : osmosdr_snk_iface Dev W) (devs : List Dev) (c : Nat)
    (h : c < (devs.map I.get_num_channels).sum) :
    ∃ pre dev post dc, devs = pre ++ dev :: post ∧ dc < I.get_num_channels dev ∧
      c = (pre.map I.get_num_channels).sum + dc ∧
      resolve I devs c = some (pre.length, dev, dc) := by
  obtain ⟨pre, dev, post, dc, h1, h2, h3⟩ := split_channel I devs c h
  refine ⟨pre, dev, post, dc, h1, h2, h3, ?_⟩
  have e := resolveFrom_hit I dev post dc h2 pre 0 0
  simp only [Nat.zero_add] at e
  rw [resolve, h1, h3]
  exact e

theorem resolve_of_ge (I : osmosdr_snk_iface Dev W) (devs : List Dev) (c : Nat)
    (h : (devs.map I.get_num_channels).sum ≤ c) : resolve I devs c = none :=
  resolveFrom_none I c devs 0 0 (by omega)

theorem getElem?_at_length (dev : Dev) (post : List Dev) : ∀ pre : List Dev,
    (pre ++ dev :: post)[pre.length]? = some dev := by
  intro pre
  induction pre with
  | nil => simp
  | cons d pre ih => simpa using ih

theorem split_at_position : ∀ (devs : List Dev) (k : Nat) (dev : Dev), devs[k]? = some dev →
    ∃ pre post, devs = pre ++ dev :: post ∧ pre.length = k := by
  intro devs
  induction devs with
  | nil => intro k dev h; simp at h
  | cons d rest ih =>
    intro k dev h
    cases k with
    | zero =>
      simp at h
      exact ⟨[], rest, by simp [h], rfl⟩
    | succ k =>
      simp at h
      obtain ⟨pre, post, h1, h2⟩ := ih k dev h
      exact ⟨d :: pre, post, by simp [h1], by simp [h2]⟩

/-- C1. Channel resolution is a partition of the logical channels `[0, total)`:
every in-range channel `c` resolves to one device position `k`, its handle and a
local index `dc` below that device's channel count, with `c` equal to the
channel counts of the earlier devices plus `dc`; different channels resolve to
different (position, local index) pairs; every such pair is reached; and with
two devices `[A, B]` the first `A.count` channels resolve to `A`, the others to `B`. -/
theorem channel_resolution_partition (I : osmosdr_snk_iface Dev W) (s : osmosdr_sink_c_impl Dev W) :
    (∀ c, c < get_num_channels I s →
      ∃ k dev dc, resolve I s._devs c = some (k, dev, dc) ∧ s._devs[k]? = some dev ∧
        dc < I.get_num_channels dev ∧
        c = ((s._devs.take k).map I.get_num_channels).sum + dc) ∧
    (∀ c c', c < get_num_channels I s → c' < get_num_channels I s →
      (resolve I s._devs c).map (fun r => (r.1, r.2.2)) =
        (resolve I s._devs c').map (fun r => (r.1, r.2.2)) → c = c') ∧
    (∀ k dev dc, s._devs[k]? = some dev → dc < I.get_num_channels dev →
      ∃ c, c < get_num_channels I s ∧ resolve I s._devs c = some (k, dev, dc)) ∧
    (∀ A B c, s._devs = [A, B] →
      (c < I.get_num_channels A → resolve I s._devs c = some (0, A, c)) ∧
      (I.get_num_channels A ≤ c → c < I.get_num_channels A + I.get_num_channels B →
        resolve I s._devs c = some (1, B, c - I.get_num_channels A))) := by
  rw [get_num_channels_eq_sum]
  refine ⟨?_, ?_, ?_, ?_⟩
  · intro c hc
    obtain ⟨pre, dev, post, dc, h1, h2, h3, h4⟩ := resolve_of_lt I s._devs c hc
    refine ⟨pre.length, dev, dc, h4, ?_, h2, ?_⟩
    · rw [h1]; exact getElem?_at_length dev post pre
    · rw [h1, List.take_left]; exact h3
  · intro c c' hc hc' heq
    obtain ⟨pre, dev, post, dc, h1, h2, h3, h4⟩ := resolve_of_lt I s._devs c hc
    obtain ⟨pre', dev', post', dc', h1', h2', h3', h4'⟩ := resolve_of_lt I s._devs c' hc'
    rw [h4, h4'] at heq
    simp only [Option.map_some', Option.some.injEq, Prod.mk.injEq] at heq
    have hp : pre = pre' := by
      have e1 : s._devs.take pre.length = pre := by rw [h1, List.take_left]
      have e2 : s._devs.take pre'.length = pre' := by rw [h1', List.take_left]
      rw [← e1, ← e2, heq.1]
    rw [h3, h3', hp, heq.2]
  · intro k dev dc hk hdc
    obtain ⟨pre, post, h1, h2⟩ := split_at_position s._devs k dev hk
    refine ⟨(pre.map I.get_num_channels).sum + dc, ?_, ?_⟩
    · rw [h1]; simp; omega
    · have e := resolveFrom_hit I dev post dc hdc pre 0 0
      simp only [Nat.zero_add] at e
      rw [resolve, h1, ← h2]
      exact e
  · intro A B c hAB
    constructor
    · intro hc
      have e := resolveFrom_hit I A [B] c hc [] 0 0
      simp at e
      rw [resolve, hAB]; exact e
    · intro h1 h2
      have e := resolveFrom_hit I B [] (c - I.get_num_channels A) (by omega) [A] 0 0
      simp at e
      have e3 : I.get_num_channels A + (c - I.get_num_channels A) = c := by omega
      rw [e3] at e
      rw [resolve, hAB]; exact e

/-- C1, at a concrete input: with a one-channel device followed by a two-channel
device, logical channel 2 is local channel 1 of the second device. -/
theorem channel_resolution_partition_witness :
    2 < get_num_channels Demo.exact (Demo.sink [Demo.hackrf0, Demo.uhd0]) ∧
    ∃ k dev dc, resolve Demo.exact (Demo.sink [Demo.hackrf0, Demo.uhd0])._devs 2 = some (k, dev, dc) ∧
      (Demo.sink [Demo.hackrf0, Demo.uhd0])._devs[k]? = some dev ∧
      dc < Demo.exact.get_num_channels dev ∧
      2 = (((Demo.sink [Demo.hackrf0, Demo.uhd0])._devs.take k).map
        Demo.exact.get_num_channels).sum + dc :=
  ⟨by decide,
   (channel_resolution_partition Demo.exact (Demo.sink [Demo.hackrf0, Demo.uhd0])).1 2 (by decide)⟩

example : resolve Demo.exact [Demo.hackrf0, Demo.uhd0] 0 = some (0, Demo.hackrf0, 0) := by decide

/-! ## Out-of-range channels -/

/-- C2. For a channel index at or beyond `get_num_channels()`, every per-channel
getter returns its neutral value (0, the empty string, the empty range, the
empty list, false) without raising, and leaves the sink as it was: the log of
backend operations and the hardware state included, so no backend is called. -/
theorem getters_out_of_range (I : osmosdr_snk_iface Dev W) (s : osmosdr_sink_c_impl Dev W)
    (chan : Nat) (name : String) (h : get_num_channels I s ≤ chan) :
    get_center_freq I chan s = (Except.ok 0, s) ∧
    get_freq_corr I chan s = (Except.ok 0, s) ∧
    get_gain I chan s = (Except.ok 0, s) ∧
    get_gain_named I name chan s = (Except.ok 0, s) ∧
    get_bandwidth I chan s = (Except.ok 0, s) ∧
    get_antenna I chan s = (Except.ok "", s) ∧
    get_freq_range I chan s = (Except.ok [], s) ∧
    get_gain_range I chan s = (Except.ok [], s) ∧
    get_gain_range_named I name chan s = (Except.ok [], s) ∧
    get_bandwidth_range I chan s = (Except.ok [], s) ∧
    get_gain_names I chan s = (Except.ok [], s) ∧
    get_antennas I chan s = (Except.ok [], s) ∧
    get_gain_mode I chan s = (Except.ok false, s) := by
  have hr : resolve I s._devs chan = none :=
    resolve_of_ge I s._devs chan (by rw [← get_num_channels_eq_sum]; exact h)
  simp [get_center_freq, get_freq_corr, get_gain, get_gain_named, get_bandwidth, get_antenna,
    get_freq_range, get_gain_range, get_gain_range_named, get_bandwidth_range, get_gain_names,
    get_antennas, get_gain_mode, hr]

/-- C2, at a concrete input: channel 3 of a sink with three channels. -/
theorem getters_out_of_range_witness :
    get_num_channels Demo.exact (Demo.sink [Demo.hackrf0, Demo.uhd0]) ≤ 3 ∧
    get_center_freq Demo.exact 3 (Demo.sink [Demo.hackrf0, Demo.uhd0]) =
      (Except.ok 0, Demo.sink [Demo.hackrf0, Demo.uhd0]) ∧
    get_antenna Demo.exact 3 (Demo.sink [Demo.hackrf0, Demo.uhd0]) =
      (Except.ok "", Demo.sink [Demo.hackrf0, Demo.uhd0]) :=
  have h := getters_out_of_range Demo.exact (Demo.sink [Demo.hackrf0, Demo.uhd0]) 3 "" (by decide)
  ⟨by decide, h.1, h.2.2.2.2.2.1⟩

/-! ## Cached setters -/

theorem CMap.get_set {V : Type} [Inhabited V] (m : CMap V) (k : Nat) (v : V) :
    (m.set k v).get k = v := by
  simp [CMap.get, CMap.set]

theorem CMap.get_touch {V : Type} [Inhabited V] (m : CMap V) (k : Nat) :
    (m.touch k).get k = m.get k := by
  simp [CMap.get, CMap.touch]

theorem Dbl.ne_self (v : Dbl) (h : v.isNaN = false) : Dbl.ne v v = false := by
  cases v with
  | nan => simp [Dbl.isNaN] at h
  | num q => simp [Dbl.ne]

theorem Dbl.eq_of_ne_false (a b : Dbl) (h : Dbl.ne a b = false) : a = b := by
  cases a <;> cases b <;> simp_all [Dbl.ne]

theorem resolve_of_in_range (I : osmosdr_snk_iface Dev W) (s : osmosdr_sink_c_impl Dev W)
    (chan : Nat) (h : chan < get_num_channels I s) :
    ∃ k dev dc, resolve I s._devs chan = some (k, dev, dc) := by
  rw [get_num_channels_eq_sum] at h
  obtain ⟨pre, dev, post, dc, _, _, _, h4⟩ := resolve_of_lt I s._devs chan h
  exact ⟨pre.length, dev, dc, h4⟩

/-- C4 (as amended). For every per-channel cached setter, every state, every
in-range channel and every value `v` that is not NaN (and, for the bandwidth,
not zero): of two consecutive calls with the same `v` on the same channel the
first invokes the corresponding backend setter at most once, and the second
invokes no backend operation at all. `dev` and `dc` are the device and the
local channel that the channel resolves to. -/
theorem cached_setters_second_call_elided (I : osmosdr_snk_iface Dev W)
    (s : osmosdr_sink_c_impl Dev W) (chan : Nat) (h : chan < get_num_channels I s) :
    ∃ k dev dc, resolve I s._devs chan = some (k, dev, dc) ∧
      (∀ v : Dbl, v.isNaN = false →
        SecondCallElided (set_center_freq I v chan) s (Call.set_center_freq dev v dc) ∧
        SecondCallElided (set_freq_corr I v chan) s (Call.set_freq_corr dev v dc) ∧
        SecondCallElided (set_gain I v chan) s (Call.set_gain dev v dc) ∧
        SecondCallElided (set_if_gain I v chan) s (Call.set_if_gain dev v dc) ∧
        SecondCallElided (set_bb_gain I v chan) s (Call.set_bb_gain dev v dc) ∧
        (Dbl.ne 0 v = true →
          SecondCallElided (set_bandwidth I v chan) s (Call.set_bandwidth dev v dc))) ∧
      (∀ antenna : String,
        SecondCallElided (set_antenna I antenna chan) s (Call.set_antenna dev antenna dc)) ∧
      (∀ automatic : Bool,
        ((set_gain_mode I automatic chan s).2.log = s.log ∨
         (set_gain_mode I automatic chan s).2.log =
            s.log ++ [Call.set_gain_mode dev automatic dc] ∨
         (set_gain_mode I automatic chan s).2.log =
            s.log ++ [Call.set_gain_mode dev automatic dc, Call.set_gain dev (s._gain.get chan) dc]) ∧
        (set_gain_mode I automatic chan (set_gain_mode I automatic chan s).2).2.log =
          (set_gain_mode I automatic chan s).2.log ∧
        (set_gain_mode I automatic chan (set_gain_mode I automatic chan s).2).2.world =
          (set_gain_mode I automatic chan s).2.world) := by
  obtain ⟨k, dev, dc, hr⟩ := resolve_of_in_range I s chan h
  refine ⟨k, dev, dc, hr, ?_, ?_, ?_⟩
  · intro v hv
    have hvv := Dbl.ne_self v hv
    refine ⟨?_, ?_, ?_, ?_, ?_, ?_⟩
    · unfold SecondCallElided set_center_freq
      simp only [hr]
      by_cases hc : Dbl.ne (s._center_freq.get chan) v = true
      · simp [hc, invoke, hr, CMap.get_set, hvv]
      · simp [hc, hr, CMap.get_touch]
    · unfold SecondCallElided set_freq_corr
      simp only [hr]
      by_cases hc : Dbl.ne (s._freq_corr.get chan) v = true
      · simp [hc, invoke, hr, CMap.get_set, hvv]
      · simp [hc, hr, CMap.get_touch]
    · unfold SecondCallElided set_gain
      simp only [hr]
      by_cases hc : Dbl.ne (s._gain.get chan) v = true
      · simp [hc, invoke, hr, CMap.get_set, hvv]
      · simp [hc, hr, CMap.get_touch]
    · unfold SecondCallElided set_if_gain
      simp only [hr]
      by_cases hc : Dbl.ne (s._if_gain.get chan) v = true
      · simp [hc, invoke, hr, CMap.get_set, hvv]
      · simp [hc, hr, CMap.get_touch]
    · unfold SecondCallElided set_bb_gain
      simp only [hr]
      by_cases hc : Dbl.ne (s._bb_gain.get chan) v = true
      · simp [hc, invoke, hr, CMap.get_set, hvv]
      · simp [hc, hr, CMap.get_touch]
    · intro hz
      unfold SecondCallElided set_bandwidth
      simp only [hr]
      by_cases hc : Dbl.ne (s._bandwidth.get chan) v = true
      · simp [hc, invoke, hr, CMap.get_set, hvv, hz]
      · simp [hc, hr, CMap.get_touch, hz]
  · intro antenna
    unfold SecondCallElided set_antenna
    simp only [hr]
    by_cases hc : s._antenna.get chan = antenna
    · simp [hc, hr, CMap.get_touch]
    · simp [hc, invoke, hr, CMap.get_set]
  · intro automatic
    unfold set_gain_mode
    simp only [hr]
    by_cases hc : s._gain_mode.get chan = automatic
    · simp [hc, hr, CMap.get_touch]
    · simp only [bne_iff_ne, ne_eq, hc, not_false_eq_true, if_true, invoke]
      cases hb : (I.set_gain_mode dev automatic dc s.world).1 with
      | error e => simp [hb, hr, CMap.get_set]
      | ok mode =>
        cases automatic with
        | true => simp [hb, hr, CMap.get_set]
        | false =>
          simp only [hb, Bool.not_false, if_true]
          cases hg : (I.set_gain dev (s._gain.get chan) dc (I.set_gain_mode dev false dc s.world).2).1 with
          | error e => simp [hg, hr, CMap.get_set]
          | ok g => simp [hg, hr, CMap.get_set]

/-- C4, at a concrete input: `set_center_freq( 100, 0 )` twice on a fresh
one-device sink; the hypothesis holds since channel 0 is in range. -/
theorem cached_setters_second_call_elided_witness :
    0 < get_num_channels Demo.exact (Demo.sink [Demo.hackrf0]) ∧
    SecondCallElided (set_center_freq Demo.exact 100 0) (Demo.sink [Demo.hackrf0])
      (Call.set_center_freq Demo.hackrf0 100 0) := by
  refine ⟨by decide, ?_⟩
  obtain ⟨k, dev, dc, hr, hd, _, _⟩ :=
    cached_setters_second_call_elided Demo.exact (Demo.sink [Demo.hackrf0]) 0 (by decide)
  have e : resolve Demo.exact (Demo.sink [Demo.hackrf0])._devs 0 = some (0, Demo.hackrf0, 0) := by
    decide
  rw [e] at hr
  cases hr
  exact (hd 100 rfl).1

/-- C4 as stated fails for the value NaN: `NaN != NaN` holds, so on an in-range
channel the second of two calls `set_center_freq( NaN, 0 )` reaches the backend
again, and the backend setter is invoked twice in total. -/
theorem cached_setter_nan_invoked_twice :
    0 < get_num_channels Demo.exact (Demo.sink [Demo.hackrf0]) ∧
    (set_center_freq Demo.exact Dbl.nan 0 (Demo.sink [Demo.hackrf0])).2.log =
      [Call.set_center_freq Demo.hackrf0 Dbl.nan 0] ∧
    (set_center_freq Demo.exact Dbl.nan 0
        (set_center_freq Demo.exact Dbl.nan 0 (Demo.sink [Demo.hackrf0])).2).2.log =
      [Call.set_center_freq Demo.hackrf0 Dbl.nan 0, Call.set_center_freq Demo.hackrf0 Dbl.nan 0] ∧
    ¬ SecondCallElided (set_center_freq Demo.exact Dbl.nan 0) (Demo.sink [Demo.hackrf0])
      (Call.set_center_freq Demo.hackrf0 Dbl.nan 0) := by
  refine ⟨by decide, by decide, by decide, ?_⟩
  intro h
  exact absurd h.2.1 (by decide)

/-- C5 (as amended). For every per-channel cached setter, every in-range channel
and every requested value `v` different from the cached one: the call invokes
the backend setter once with `v` and returns what the backend returns, but the
value it stores as the new cached value is the requested `v`, not the value
the backend returned; an immediately repeated call with the same `v` (not NaN,
and not zero for the bandwidth) invokes no backend and returns `v`. For
`set_gain_mode` a switch to manual, once the backend has taken the mode without
raising, also sends the cached gain to the backend's `set_gain`, right after
the mode, and returns the mode the backend answered unless `set_gain` raises,
whose error is then returned; if the backend raises on the mode, that error is
returned and no gain is sent. -/
theorem cached_setters_store_requested (I : osmosdr_snk_iface Dev W)
    (s : osmosdr_sink_c_impl Dev W) (chan : Nat) (h : chan < get_num_channels I s) :
    ∃ k dev dc, resolve I s._devs chan = some (k, dev, dc) ∧
      (∀ v : Dbl,
        (Dbl.ne (s._center_freq.get chan) v = true →
          GoesToBackend (set_center_freq I v chan) s (Call.set_center_freq dev v dc) (I.set_center_freq dev v dc) ∧
          (set_center_freq I v chan s).2._center_freq.get chan = v ∧
          (v.isNaN = false → RepeatReturns (set_center_freq I v chan) s v)) ∧
        (Dbl.ne (s._freq_corr.get chan) v = true →
          GoesToBackend (set_freq_corr I v chan) s (Call.set_freq_corr dev v dc) (I.set_freq_corr dev v dc) ∧
          (set_freq_corr I v chan s).2._freq_corr.get chan = v ∧
          (v.isNaN = false → RepeatReturns (set_freq_corr I v chan) s v)) ∧
        (Dbl.ne (s._gain.get chan) v = true →
          GoesToBackend (set_gain I v chan) s (Call.set_gain dev v dc) (I.set_gain dev v dc) ∧
          (set_gain I v chan s).2._gain.get chan = v ∧
          (v.isNaN = false → RepeatReturns (set_gain I v chan) s v)) ∧
        (Dbl.ne (s._if_gain.get chan) v = true →
          GoesToBackend (set_if_gain I v chan) s (Call.set_if_gain dev v dc) (I.set_if_gain dev v dc) ∧
          (set_if_gain I v chan s).2._if_gain.get chan = v ∧
          (v.isNaN = false → RepeatReturns (set_if_gain I v chan) s v)) ∧
        (Dbl.ne (s._bb_gain.get chan) v = true →
          GoesToBackend (set_bb_gain I v chan) s (Call.set_bb_gain dev v dc) (I.set_bb_gain dev v dc) ∧
          (set_bb_gain I v chan s).2._bb_gain.get chan = v ∧
          (v.isNaN = false → RepeatReturns (set_bb_gain I v chan) s v)) ∧
        (Dbl.ne (s._bandwidth.get chan) v = true →
          GoesToBackend (set_bandwidth I v chan) s (Call.set_bandwidth dev v dc)
            (I.set_bandwidth dev v dc) ∧
          (set_bandwidth I v chan s).2._bandwidth.get chan = v ∧
          (v.isNaN = false → Dbl.ne 0 v = true → RepeatReturns (set_bandwidth I v chan) s v))) ∧
      (∀ antenna : String, s._antenna.get chan ≠ antenna →
        GoesToBackend (set_antenna I antenna chan) s (Call.set_antenna dev antenna dc)
          (I.set_antenna dev antenna dc) ∧
        (set_antenna I antenna chan s).2._antenna.get chan = antenna ∧
        RepeatReturns (set_antenna I antenna chan) s antenna) ∧
      (∀ automatic : Bool, s._gain_mode.get chan ≠ automatic →
        (∃ rest, (set_gain_mode I automatic chan s).2.log =
          s.log ++ Call.set_gain_mode dev automatic dc :: rest) ∧
        (automatic = true →
          GoesToBackend (set_gain_mode I automatic chan) s (Call.set_gain_mode dev automatic dc)
            (I.set_gain_mode dev automatic dc)) ∧
        ((set_gain_mode I automatic chan s).1 = (I.set_gain_mode dev automatic dc s.world).1 ∨
          ∃ e, (set_gain_mode I automatic chan s).1 = Except.error e) ∧
        (set_gain_mode I automatic chan s).2._gain_mode.get chan = automatic ∧
        RepeatReturns (set_gain_mode I automatic chan) s automatic ∧
        (automatic = false →
          ∀ e, (I.set_gain_mode dev automatic dc s.world).1 = Except.error e →
            (set_gain_mode I automatic chan s).1 = Except.error e ∧
            (set_gain_mode I automatic chan s).2.log =
              s.log ++ [Call.set_gain_mode dev automatic dc]) ∧
        (automatic = false →
          ∀ mode, (I.set_gain_mode dev automatic dc s.world).1 = Except.ok mode →
            (set_gain_mode I automatic chan s).2.log =
              s.log ++ [Call.set_gain_mode dev automatic dc,
                Call.set_gain dev (s._gain.get chan) dc] ∧
            (set_gain_mode I automatic chan s).2.world =
              (I.set_gain dev (s._gain.get chan) dc
                (I.set_gain_mode dev automatic dc s.world).2).2 ∧
            (∀ g, (I.set_gain dev (s._gain.get chan) dc
                (I.set_gain_mode dev automatic dc s.world).2).1 = Except.ok g →
              (set_gain_mode I automatic chan s).1 = Except.ok mode) ∧
            (∀ e, (I.set_gain dev (s._gain.get chan) dc
                (I.set_gain_mode dev automatic dc s.world).2).1 = Except.error e →
              (set_gain_mode I automatic chan s).1 = Except.error e))) := by
  obtain ⟨k, dev, dc, hr⟩ := resolve_of_in_range I s chan h
  refine ⟨k, dev, dc, hr, ?_, ?_, ?_⟩
  · intro v
    refine ⟨?_, ?_, ?_, ?_, ?_, ?_⟩
    · intro hc
      refine ⟨?_, ?_, ?_⟩
      · simp [GoesToBackend, set_center_freq, hr, hc, invoke]
      · simp [set_center_freq, hr, hc, invoke, CMap.get_set]
      · intro hv
        have hvv := Dbl.ne_self v hv
        simp [RepeatReturns, set_center_freq, hr, hc, invoke, CMap.get_set, hvv]
    · intro hc
      refine ⟨?_, ?_, ?_⟩
      · simp [GoesToBackend, set_freq_corr, hr, hc, invoke]
      · simp [set_freq_corr, hr, hc, invoke, CMap.get_set]
      · intro hv
        have hvv := Dbl.ne_self v hv
        simp [RepeatReturns, set_freq_corr, hr, hc, invoke, CMap.get_set, hvv]
    · intro hc
      refine ⟨?_, ?_, ?_⟩
      · simp [GoesToBackend, set_gain, hr, hc, invoke]
      · simp [set_gain, hr, hc, invoke, CMap.get_set]
      · intro hv
        have hvv := Dbl.ne_self v hv
        simp [RepeatReturns, set_gain, hr, hc, invoke, CMap.get_set, hvv]
    · intro hc
      refine ⟨?_, ?_, ?_⟩
      · simp [GoesToBackend, set_if_gain, hr, hc, invoke]
      · simp [set_if_gain, hr, hc, invoke, CMap.get_set]
      · intro hv
        have hvv := Dbl.ne_self v hv
        simp [RepeatReturns, set_if_gain, hr, hc, invoke, CMap.get_set, hvv]
    · intro hc
      refine ⟨?_, ?_, ?_⟩
      · simp [GoesToBackend, set_bb_gain, hr, hc, invoke]
      · simp [set_bb_gain, hr, hc, invoke, CMap.get_set]
      · intro hv
        have hvv := Dbl.ne_self v hv
        simp [RepeatReturns, set_bb_gain, hr, hc, invoke, CMap.get_set, hvv]
    · intro hc
      refine ⟨?_, ?_, ?_⟩
      · simp [GoesToBackend, set_bandwidth, hr, hc, invoke]
      · simp [set_bandwidth, hr, hc, invoke, CMap.get_set]
      · intro hv hz
        have hvv := Dbl.ne_self v hv
        simp [RepeatReturns, set_bandwidth, hr, hc, invoke, CMap.get_set, hvv, hz]
  · intro antenna hc
    refine ⟨?_, ?_, ?_⟩
    · simp [GoesToBackend, set_antenna, hr, hc, invoke]
    · simp [set_antenna, hr, hc, invoke, CMap.get_set]
    · simp [RepeatReturns, set_antenna, hr, hc, invoke, CMap.get_set]
  · intro automatic hc
    unfold RepeatReturns GoesToBackend set_gain_mode
    simp only [hr, bne_iff_ne, ne_eq, hc, not_false_eq_true, if_true, invoke]
    cases hb : (I.set_gain_mode dev automatic dc s.world).1 with
    | error e => simp [hb, hr, CMap.get_set]
    | ok mode =>
      cases automatic with
      | true => simp [hb, hr, CMap.get_set]
      | false =>
        simp only [hb, Bool.not_false, if_true]
        cases hg : (I.set_gain dev (s._gain.get chan) dc (I.set_gain_mode dev false dc s.world).2).1 with
        | error e => simp [hg, hr, CMap.get_set]
        | ok g => simp [hg, hr, CMap.get_set]

/-- C5, at a concrete input: `set_center_freq( 100, 0 )` on a fresh one-device
sink whose hardware answers 48000; the cache holds 0, which differs from 100. -/
theorem cached_setters_store_requested_witness :
    0 < get_num_channels Demo.clamped (Demo.sink [Demo.hackrf0]) ∧
    Dbl.ne ((Demo.sink [Demo.hackrf0])._center_freq.get 0) 100 = true ∧
    GoesToBackend (set_center_freq Demo.clamped 100 0) (Demo.sink [Demo.hackrf0])
      (Call.set_center_freq Demo.hackrf0 100 0) (Demo.clamped.set_center_freq Demo.hackrf0 100 0) ∧
    (set_center_freq Demo.clamped 100 0 (Demo.sink [Demo.hackrf0])).2._center_freq.get 0 = 100 ∧
    RepeatReturns (set_center_freq Demo.clamped 100 0) (Demo.sink [Demo.hackrf0]) 100 := by
  obtain ⟨k, dev, dc, hr, hd, _, _⟩ :=
    cached_setters_store_requested Demo.clamped (Demo.sink [Demo.hackrf0]) 0 (by decide)
  have e : resolve Demo.clamped (Demo.sink [Demo.hackrf0])._devs 0 = some (0, Demo.hackrf0, 0) := by
    decide
  rw [e] at hr
  cases hr
  have h1 := (hd 100).1 (by decide)
  exact ⟨by decide, by decide, h1.1, h1.2.1, h1.2.2 rfl⟩

/-- C5 as stated fails when the backend adjusts the value: the hardware answers
48000 to `set_center_freq( 100, 0 )`, the call returns 48000, yet the cached
value becomes the requested 100, and the repeated call returns 100, not 48000. -/
theorem cached_setter_keeps_requested_value :
    0 < get_num_channels Demo.clamped (Demo.sink [Demo.hackrf0]) ∧
    (set_center_freq Demo.clamped 100 0 (Demo.sink [Demo.hackrf0])).1 = Except.ok (Dbl.num 48000) ∧
    (set_center_freq Demo.clamped 100 0 (Demo.sink [Demo.hackrf0])).2._center_freq.get 0 =
      Dbl.num 100 ∧
    (set_center_freq Demo.clamped 100 0
      (set_center_freq Demo.clamped 100 0 (Demo.sink [Demo.hackrf0])).2).1 =
        Except.ok (Dbl.num 100) ∧
    (set_center_freq Demo.clamped 100 0
      (set_center_freq Demo.clamped 100 0 (Demo.sink [Demo.hackrf0])).2).1 ≠
      (set_center_freq Demo.clamped 100 0 (Demo.sink [Demo.hackrf0])).1 := by
  refine ⟨by decide, rfl, by decide, rfl, ?_⟩
  intro h
  have e : (Except.ok (Dbl.num 100) : Except String Dbl) = Except.ok (Dbl.num 48000) := h
  simp at e

/-! ## The sample rate -/

theorem set_sample_rate_cached (I : osmosdr_snk_iface Dev W) (s : osmosdr_sink_c_impl Dev W)
    (rate : Dbl) (h : Dbl.ne s._sample_rate rate = false) :
    set_sample_rate I rate s = (Except.ok 0, s) := by
  simp [set_sample_rate, h]

theorem set_sample_rate_loop_spec (I : osmosdr_snk_iface Dev W) (rate : Dbl) :
    ∀ (devs : List Dev) (sample_rate : Dbl) (s : osmosdr_sink_c_impl Dev W),
      (set_sample_rate_loop I rate devs sample_rate s).2._sample_rate = s._sample_rate ∧
      (set_sample_rate_loop I rate devs sample_rate s).2._devs = s._devs ∧
      (∀ x, (set_sample_rate_loop I rate devs sample_rate s).1 = Except.ok x →
        (set_sample_rate_loop I rate devs sample_rate s).2.log =
          s.log ++ devs.map (fun dev => Call.set_sample_rate dev rate)) := by
  intro devs
  induction devs with
  | nil => intro sample_rate s; simp [set_sample_rate_loop]
  | cons d rest ih =>
    intro sample_rate s
    unfold set_sample_rate_loop
    simp only [invoke]
    cases hb : (I.set_sample_rate d rate s.world).1 with
    | error e => simp
    | ok x =>
      simp only []
      obtain ⟨h1, h2, h3⟩ := ih x
        { s with world := (I.set_sample_rate d rate s.world).2,
                 log := s.log ++ [Call.set_sample_rate d rate] }
      refine ⟨h1, h2, ?_⟩
      intro y hy
      rw [h3 y hy]
      simp

/-- C6, the code at the failing input. On a one-device sink with exact hardware
the first `set_sample_rate( 1000000 )` returns 1000000 and caches it; the second
call, with the rate equal to the cached one, invokes no backend but returns 0,
not the cached 1000000. -/
theorem set_sample_rate_unchanged_returns_zero :
    (set_sample_rate Demo.exact 1000000 (Demo.sink [Demo.hackrf0])).1 =
      Except.ok (Dbl.num 1000000) ∧
    (set_sample_rate Demo.exact 1000000 (Demo.sink [Demo.hackrf0])).2._sample_rate =
      Dbl.num 1000000 ∧
    (set_sample_rate Demo.exact 1000000
      (set_sample_rate Demo.exact 1000000 (Demo.sink [Demo.hackrf0])).2).1 =
        Except.ok (Dbl.num 0) ∧
    (set_sample_rate Demo.exact 1000000
      (set_sample_rate Demo.exact 1000000 (Demo.sink [Demo.hackrf0])).2).2.log =
      (set_sample_rate Demo.exact 1000000 (Demo.sink [Demo.hackrf0])).2.log := by
  refine ⟨rfl, by decide, rfl, by decide⟩

/-- C7 (as amended). For every device list and every rate `r`: whenever the first
call `set_sample_rate( r )` leaves a cached sample rate equal to `r` (then `r`
is not NaN, and either `r` was cached before or the last device answered
exactly `r`), two calls in a row invoke each device's backend at most once in
total: the first call invokes nothing or `set_sample_rate( r )` once on every
device in list order, the second call invokes nothing. -/
theorem set_sample_rate_twice (I : osmosdr_snk_iface Dev W) (s : osmosdr_sink_c_impl Dev W)
    (rate : Dbl) (h : Dbl.ne (set_sample_rate I rate s).2._sample_rate rate = false) :
    ((set_sample_rate I rate s).2.log = s.log ∨
      (set_sample_rate I rate s).2.log =
        s.log ++ s._devs.map (fun dev => Call.set_sample_rate dev rate)) ∧
    (set_sample_rate I rate (set_sample_rate I rate s).2).2.log =
      (set_sample_rate I rate s).2.log := by
  constructor
  · by_cases hc : Dbl.ne s._sample_rate rate = true
    · right
      obtain ⟨h1, _, h3⟩ := set_sample_rate_loop_spec I rate s._devs 0 s
      revert h
      unfold set_sample_rate
      simp only [hc, if_true]
      cases hl : set_sample_rate_loop I rate s._devs 0 s with
      | mk out s1 =>
        rw [hl] at h1 h3
        cases out with
        | error e =>
          intro h
          simp only [] at h h1
          rw [h1, hc] at h
          exact absurd h (by simp)
        | ok x => intro _; exact h3 x rfl
    · left
      rw [set_sample_rate_cached I s rate (by simpa using hc)]
  · rw [set_sample_rate_cached I _ rate h]

/-- C7, at a concrete input: exact hardware, two devices, the rate 1000000. -/
theorem set_sample_rate_twice_witness :
    Dbl.ne (set_sample_rate Demo.exact 1000000
      (Demo.sink [Demo.hackrf0, Demo.uhd0])).2._sample_rate 1000000 = false ∧
    (set_sample_rate Demo.exact 1000000
      (set_sample_rate Demo.exact 1000000 (Demo.sink [Demo.hackrf0, Demo.uhd0])).2).2.log =
      (set_sample_rate Demo.exact 1000000 (Demo.sink [Demo.hackrf0, Demo.uhd0])).2.log :=
  ⟨by decide,
   (set_sample_rate_twice Demo.exact (Demo.sink [Demo.hackrf0, Demo.uhd0]) 1000000 (by decide)).2⟩

/-- C7 as stated fails for a backend that adjusts the rate: the hardware answers
48000 to `set_sample_rate( 44100 )`, the sink caches 48000, and the second call
with 44100 invokes the device again: twice in total. -/
theorem set_sample_rate_adjusted_invoked_twice :
    (set_sample_rate Demo.clamped 44100 (Demo.sink [Demo.hackrf0])).2._sample_rate =
      Dbl.num 48000 ∧
    (set_sample_rate Demo.clamped 44100
      (set_sample_rate Demo.clamped 44100 (Demo.sink [Demo.hackrf0])).2).2.log =
      [Call.set_sample_rate Demo.hackrf0 44100, Call.set_sample_rate Demo.hackrf0 44100] ∧
    (set_sample_rate Demo.clamped 44100
      (set_sample_rate Demo.clamped 44100 (Demo.sink [Demo.hackrf0])).2).2.log.count
        (Call.set_sample_rate Demo.hackrf0 44100) = 2 := by
  refine ⟨by decide, by decide, by decide⟩

/-- C8 (as amended). For every non-empty device list, `get_sample_rate()` asks the
first device of the list, and only it, and returns its answer. -/
theorem get_sample_rate_first_device (I : osmosdr_snk_iface Dev W)
    (s : osmosdr_sink_c_impl Dev W) (dev0 : Dev) (rest : List Dev) (h : s._devs = dev0 :: rest) :
    (get_sample_rate I s).1 = (I.get_sample_rate dev0 s.world).1 ∧
    (get_sample_rate I s).2.log = s.log ++ [Call.get_sample_rate dev0] := by
  simp [get_sample_rate, h, invoke]

/-- C8, at a concrete input: a sink over two devices. -/
theorem get_sample_rate_first_device_witness :
    (Demo.sink [Demo.hackrf0, Demo.uhd0])._devs = Demo.hackrf0 :: [Demo.uhd0] ∧
    (get_sample_rate Demo.exact (Demo.sink [Demo.hackrf0, Demo.uhd0])).1 =
      (Demo.exact.get_sample_rate Demo.hackrf0 (Demo.sink [Demo.hackrf0, Demo.uhd0]).world).1 :=
  ⟨rfl, (get_sample_rate_first_device Demo.exact (Demo.sink [Demo.hackrf0, Demo.uhd0])
    Demo.hackrf0 [Demo.uhd0] rfl).1⟩

/-- C8 as stated fails with two devices: the first device reports the rate 1
and the last one the rate 2; `get_sample_rate()` asks the first device only
and returns 1, not the rate 2 of the last device. -/
theorem get_sample_rate_not_last_device :
    (Demo.exact.get_sample_rate Demo.uhd0 ()).1 = Except.ok (Dbl.num 2) ∧
    (get_sample_rate Demo.exact (Demo.sink [Demo.hackrf0, Demo.uhd0])).1 =
      Except.ok (Dbl.num 1) ∧
    (get_sample_rate Demo.exact (Demo.sink [Demo.hackrf0, Demo.uhd0])).2.log =
      [Call.get_sample_rate Demo.hackrf0] ∧
    (get_sample_rate Demo.exact (Demo.sink [Demo.hackrf0, Demo.uhd0])).1 ≠
      (Demo.exact.get_sample_rate Demo.uhd0 (Demo.sink [Demo.hackrf0, Demo.uhd0]).world).1 := by
  refine ⟨rfl, rfl, by decide, ?_⟩
  intro h
  have e : (Except.ok (Dbl.num 1) : Except String Dbl) = Except.ok (Dbl.num 2) := h
  simp at e

/-! ## Gain mode and bandwidth -/

/-- C9 (as amended). For every in-range channel and gain `g`: after
`set_gain( g, chan )`, then `set_gain_mode( true, chan )`, then
`set_gain_mode( false, chan )`, the last call invokes the backend's
`set_gain_mode( false, dc )` on the resolved device and, when that returns
without raising, the backend's `set_gain( g, dc )` right after it, while the
cached gain is `g` before and after; when the backend raises on the mode, the
error is returned and nothing else is invoked. -/
theorem gain_mode_reentry_reapplies_gain (I : osmosdr_snk_iface Dev W)
    (s : osmosdr_sink_c_impl Dev W) (chan : Nat) (g : Dbl) (h : chan < get_num_channels I s) :
    ∃ k dev dc, resolve I s._devs chan = some (k, dev, dc) ∧
      (∀ mode : Bool,
        (I.set_gain_mode dev false dc
          (set_gain_mode I true chan (set_gain I g chan s).2).2.world).1 = Except.ok mode →
        (set_gain_mode I false chan (set_gain_mode I true chan (set_gain I g chan s).2).2).2.log =
          (set_gain_mode I true chan (set_gain I g chan s).2).2.log ++
            [Call.set_gain_mode dev false dc, Call.set_gain dev g dc] ∧
        (set_gain_mode I true chan (set_gain I g chan s).2).2._gain.get chan = g ∧
        (set_gain_mode I false chan
          (set_gain_mode I true chan (set_gain I g chan s).2).2).2._gain.get chan = g) ∧
      (∀ e : String,
        (I.set_gain_mode dev false dc
          (set_gain_mode I true chan (set_gain I g chan s).2).2.world).1 = Except.error e →
        (set_gain_mode I false chan (set_gain_mode I true chan (set_gain I g chan s).2).2).1 =
          Except.error e ∧
        (set_gain_mode I false chan (set_gain_mode I true chan (set_gain I g chan s).2).2).2.log =
          (set_gain_mode I true chan (set_gain I g chan s).2).2.log ++
            [Call.set_gain_mode dev false dc]) := by
  obtain ⟨k, dev, dc, hr⟩ := resolve_of_in_range I s chan h
  refine ⟨k, dev, dc, hr, ?_⟩
  -- the state after `set_gain( g, chan )`: same devices, cached gain `g`
  have h1 : (set_gain I g chan s).2._devs = s._devs ∧ (set_gain I g chan s).2._gain.get chan = g := by
    unfold set_gain
    simp only [hr]
    by_cases hc : Dbl.ne (s._gain.get chan) g = true
    · simp [hc, invoke, CMap.get_set]
    · have e := Dbl.eq_of_ne_false _ _ (by simpa using hc)
      rw [if_neg hc]
      simp [CMap.get_touch, e]
  generalize (set_gain I g chan s).2 = s1 at h1
  obtain ⟨hd1, hg1⟩ := h1
  -- the state after `set_gain_mode( true, chan )`: same devices, same gain, mode automatic
  have h2 : (set_gain_mode I true chan s1).2._devs = s._devs ∧
      (set_gain_mode I true chan s1).2._gain.get chan = g ∧
      (set_gain_mode I true chan s1).2._gain_mode.get chan = true := by
    unfold set_gain_mode
    simp only [hd1, hr]
    by_cases hc : s1._gain_mode.get chan = true
    · simp [hc, hd1, hg1, CMap.get_touch]
    · simp only [bne_iff_ne, ne_eq, hc, not_false_eq_true, if_true, invoke]
      cases hb : (I.set_gain_mode dev true dc s1.world).1 with
      | error e => simp [hd1, hg1, CMap.get_set]
      | ok m => simp [hd1, hg1, CMap.get_set]
  generalize (set_gain_mode I true chan s1).2 = s2 at h2
  obtain ⟨hd2, hg2, hm2⟩ := h2
  constructor
  · intro mode hmode
    unfold set_gain_mode
    simp only [hd2, hr, hm2, invoke]
    simp only [bne_iff_ne, ne_eq, Bool.true_eq_false, not_false_eq_true, if_true, hmode,
      Bool.not_false, hg2]
    cases hb : (I.set_gain dev g dc (I.set_gain_mode dev false dc s2.world).2).1 with
    | error e => simp [hg2, CMap.get_touch]
    | ok x => simp [hg2, CMap.get_touch]
  · intro e herr
    unfold set_gain_mode
    simp only [hd2, hr, hm2, invoke]
    simp [herr]

/-- C9 (as amended), at a concrete input: gain 20 on channel 0 of a one-device
sink with exact hardware; the backend's `set_gain_mode` returns normally. -/
theorem gain_mode_reentry_reapplies_gain_witness :
    0 < get_num_channels Demo.exact (Demo.sink [Demo.hackrf0]) ∧
    (set_gain_mode Demo.exact false 0
      (set_gain_mode Demo.exact true 0 (set_gain Demo.exact 20 0 (Demo.sink [Demo.hackrf0])).2).2).2.log =
      (set_gain_mode Demo.exact true 0 (set_gain Demo.exact 20 0 (Demo.sink [Demo.hackrf0])).2).2.log ++
        [Call.set_gain_mode Demo.hackrf0 false 0, Call.set_gain Demo.hackrf0 20 0] := by
  refine ⟨by decide, ?_⟩
  obtain ⟨k, dev, dc, hr, hd⟩ :=
    gain_mode_reentry_reapplies_gain Demo.exact (Demo.sink [Demo.hackrf0]) 0 20 (by decide)
  have e : resolve Demo.exact (Demo.sink [Demo.hackrf0])._devs 0 = some (0, Demo.hackrf0, 0) := by
    decide
  rw [e] at hr
  cases hr
  exact (hd.1 false rfl).1

/-- C9 as stated fails when the backend raises on the switch to manual: after
`set_gain( 20, 0 )` and `set_gain_mode( true, 0 )`, the call
`set_gain_mode( false, 0 )` invokes the backend's `set_gain_mode( false, 0 )`,
which raises; the error is returned and the backend's `set_gain( 20, 0 )` is
not invoked (the only `set_gain` in the log is the first call's). -/
theorem gain_mode_reentry_backend_raises :
    0 < get_num_channels Demo.no_manual_gain (Demo.sink [Demo.hackrf0]) ∧
    (set_gain_mode Demo.no_manual_gain false 0
      (set_gain_mode Demo.no_manual_gain true 0
        (set_gain Demo.no_manual_gain 20 0 (Demo.sink [Demo.hackrf0])).2).2).1 =
      Except.error "manual gain unsupported" ∧
    (set_gain_mode Demo.no_manual_gain false 0
      (set_gain_mode Demo.no_manual_gain true 0
        (set_gain Demo.no_manual_gain 20 0 (Demo.sink [Demo.hackrf0])).2).2).2.log =
      [Call.set_gain Demo.hackrf0 20 0, Call.set_gain_mode Demo.hackrf0 true 0,
        Call.set_gain_mode Demo.hackrf0 false 0] ∧
    (set_gain_mode Demo.no_manual_gain false 0
      (set_gain_mode Demo.no_manual_gain true 0
        (set_gain Demo.no_manual_gain 20 0 (Demo.sink [Demo.hackrf0])).2).2).2.log ≠
      (set_gain_mode Demo.no_manual_gain true 0
        (set_gain Demo.no_manual_gain 20 0 (Demo.sink [Demo.hackrf0])).2).2.log ++
        [Call.set_gain_mode Demo.hackrf0 false 0, Call.set_gain Demo.hackrf0 20 0] := by
  refine ⟨by decide, rfl, by decide, by decide⟩

/-- C10. For every state and every in-range channel, `set_bandwidth( 0, chan )`
invokes the backend's `set_bandwidth( 0, dc )` on the resolved device exactly
once and returns the backend's result, whatever the cached bandwidth is. -/
theorem set_bandwidth_zero_forces_backend (I : osmosdr_snk_iface Dev W)
    (s : osmosdr_sink_c_impl Dev W) (chan : Nat) (h : chan < get_num_channels I s) :
    ∃ k dev dc, resolve I s._devs chan = some (k, dev, dc) ∧
      GoesToBackend (set_bandwidth I 0 chan) s (Call.set_bandwidth dev 0 dc)
        (I.set_bandwidth dev 0 dc) := by
  obtain ⟨k, dev, dc, hr⟩ := resolve_of_in_range I s chan h
  refine ⟨k, dev, dc, hr, ?_⟩
  have hz : Dbl.ne 0 0 = false := by decide
  simp [GoesToBackend, set_bandwidth, hr, hz, invoke]

/-- C10, at a concrete input: the second of two calls `set_bandwidth( 0, 0 )`, when
the cached bandwidth is already 0, still reaches the backend. -/
theorem set_bandwidth_zero_forces_backend_witness :
    0 < get_num_channels Demo.exact (set_bandwidth Demo.exact 0 0 (Demo.sink [Demo.hackrf0])).2 ∧
    (set_bandwidth Demo.exact 0 0 (Demo.sink [Demo.hackrf0])).2._bandwidth.get 0 = Dbl.num 0 ∧
    GoesToBackend (set_bandwidth Demo.exact 0 0)
      (set_bandwidth Demo.exact 0 0 (Demo.sink [Demo.hackrf0])).2
      (Call.set_bandwidth Demo.hackrf0 0 0) (Demo.exact.set_bandwidth Demo.hackrf0 0 0) := by
  refine ⟨by decide, by decide, ?_⟩
  obtain ⟨k, dev, dc, hr, hd⟩ :=
    set_bandwidth_zero_forces_backend Demo.exact
      (set_bandwidth Demo.exact 0 0 (Demo.sink [Demo.hackrf0])).2 0 (by decide)
  have e : resolve Demo.exact (set_bandwidth Demo.exact 0 0 (Demo.sink [Demo.hackrf0])).2._devs 0 =
      some (0, Demo.hackrf0, 0) := by decide
  rw [e] at hr
  cases hr
  exact hd

/-! ## Construction -/

/-- C11. The named-gain setter bypasses the cache: for every state, in-range
channel, name and gain, `set_gain( gain, name, chan )` invokes the backend's
named `set_gain` on the resolved device and local channel exactly once and
returns its result, also when it is repeated with the same arguments, and
every cache is left as it was. -/
theorem named_gain_bypasses_cache (I : osmosdr_snk_iface Dev W) (s : osmosdr_sink_c_impl Dev W)
    (gain : Dbl) (name : String) (chan : Nat) (h : chan < get_num_channels I s) :
    ∃ k dev dc, resolve I s._devs chan = some (k, dev, dc) ∧
      GoesToBackend (set_gain_named I gain name chan) s
        (Call.set_gain_named dev gain name dc) (I.set_gain_named dev gain name dc) ∧
      SameCaches s (set_gain_named I gain name chan s).2 ∧
      GoesToBackend (set_gain_named I gain name chan) (set_gain_named I gain name chan s).2
        (Call.set_gain_named dev gain name dc) (I.set_gain_named dev gain name dc) ∧
      SameCaches s (set_gain_named I gain name chan (set_gain_named I gain name chan s).2).2 := by
  obtain ⟨k, dev, dc, hr⟩ := resolve_of_in_range I s chan h
  refine ⟨k, dev, dc, hr, ?_, ?_, ?_, ?_⟩
  · simp [GoesToBackend, set_gain_named, hr, invoke]
  · simp [SameCaches, set_gain_named, hr, invoke]
  · simp [GoesToBackend, set_gain_named, hr, invoke]
  · simp [SameCaches, set_gain_named, hr, invoke]

/-- C11, at a concrete input: `set_gain( 20, "VGA", 0 )` twice on a one-device sink
reaches the backend twice. -/
theorem named_gain_bypasses_cache_witness :
    0 < get_num_channels Demo.exact (Demo.sink [Demo.hackrf0]) ∧
    (set_gain_named Demo.exact 20 "VGA" 0
      (set_gain_named Demo.exact 20 "VGA" 0 (Demo.sink [Demo.hackrf0])).2).2.log =
      [Call.set_gain_named Demo.hackrf0 20 "VGA" 0, Call.set_gain_named Demo.hackrf0 20 "VGA" 0] := by
  refine ⟨by decide, ?_⟩
  obtain ⟨k, dev, dc, hr, h1, _, h2, _⟩ :=
    named_gain_bypasses_cache Demo.exact (Demo.sink [Demo.hackrf0]) 20 "VGA" 0 (by decide)
  have e : resolve Demo.exact (Demo.sink [Demo.hackrf0])._devs 0 = some (0, Demo.hackrf0, 0) := by
    decide
  rw [e] at hr
  cases hr
  rw [h2.2.2, h1.2.2]
  rfl

/-! ## DC offset and IQ balance -/

theorem scanDevAll_miss (chan : Nat)
    (body : Nat → osmosdr_sink_c_impl Dev W → Except String Unit × osmosdr_sink_c_impl Dev W) :
    ∀ (remaining dev_chan channel : Nat) (s : osmosdr_sink_c_impl Dev W),
    chan < channel ∨ channel + remaining ≤ chan →
    scanDevAll chan body remaining dev_chan channel s = (Except.ok (channel + remaining), s) := by
  intro remaining
  induction remaining with
  | zero => intro dev_chan channel s _; rfl
  | succ r ih =>
    intro dev_chan channel s h
    unfold scanDevAll
    have hne : chan ≠ channel := by omega
    rw [if_neg hne, ih (dev_chan + 1) (channel + 1) s (by omega)]
    have e : channel + 1 + r = channel + (r + 1) := by omega
    rw [e]

theorem scanDevAll_hit (chan : Nat)
    (body : Nat → osmosdr_sink_c_impl Dev W → Except String Unit × osmosdr_sink_c_impl Dev W) :
    ∀ (remaining dev_chan channel : Nat) (s : osmosdr_sink_c_impl Dev W),
    channel ≤ chan → chan < channel + remaining →
    scanDevAll chan body remaining dev_chan channel s =
      match body (dev_chan + (chan - channel)) s with
      | (Except.ok _, s1) => (Except.ok (channel + remaining), s1)
      | (Except.error e, s1) => (Except.error e, s1) := by
  intro remaining
  induction remaining with
  | zero => intro dev_chan channel s h1 h2; omega
  | succ r ih =>
    intro dev_chan channel s h1 h2
    unfold scanDevAll
    by_cases hc : chan = channel
    · subst hc
      simp only [if_true, Nat.sub_self, Nat.add_zero]
      cases hb : body dev_chan s with
      | mk out s1 =>
        cases out with
        | error e => rfl
        | ok u =>
          simp only []
          rw [scanDevAll_miss chan body r (dev_chan + 1) (chan + 1) s1 (by omega)]
          have e : chan + 1 + r = chan + (r + 1) := by omega
          rw [e]
    · rw [if_neg hc, ih (dev_chan + 1) (channel + 1) s (by omega) (by omega)]
      have e1 : dev_chan + 1 + (chan - (channel + 1)) = dev_chan + (chan - channel) := by omega
      have e2 : channel + 1 + r = channel + (r + 1) := by omega
      rw [e1, e2]

theorem forAllDevs_miss (I : osmosdr_snk_iface Dev W) (chan : Nat)
    (body : Dev → Nat → osmosdr_sink_c_impl Dev W → Except String Unit × osmosdr_sink_c_impl Dev W) :
    ∀ (devs : List Dev) (channel : Nat) (s : osmosdr_sink_c_impl Dev W),
    chan < channel ∨ channel + (devs.map I.get_num_channels).sum ≤ chan →
    forAllDevs I chan body devs channel s = (Except.ok (), s) := by
  intro devs
  induction devs with
  | nil => intro channel s _; rfl
  | cons d rest ih =>
    intro channel s h
    simp only [List.map_cons, List.sum_cons] at h
    unfold forAllDevs
    rw [scanDevAll_miss chan (body d) _ 0 channel s (by omega)]
    exact ih _ s (by omega)

theorem forAllDevs_hit (I : osmosdr_snk_iface Dev W)
    (body : Dev → Nat → osmosdr_sink_c_impl Dev W → Except String Unit × osmosdr_sink_c_impl Dev W)
    (dev : Dev) (post : List Dev) (dc : Nat) (hdc : dc < I.get_num_channels dev) :
    ∀ (pre : List Dev) (channel : Nat) (s : osmosdr_sink_c_impl Dev W),
    forAllDevs I (channel + (pre.map I.get_num_channels).sum + dc) body (pre ++ dev :: post)
        channel s =
      match body dev dc s with
      | (Except.ok _, s1) => (Except.ok (), s1)
      | (Except.error e, s1) => (Except.error e, s1) := by
  intro pre
  induction pre with
  | nil =>
    intro channel s
    simp only [List.map_nil, List.sum_nil, List.nil_append, Nat.add_zero]
    unfold forAllDevs
    rw [scanDevAll_hit _ (body dev) _ 0 channel s (by omega) (by omega)]
    have e : 0 + (channel + dc - channel) = dc := by omega
    rw [e]
    cases hb : body dev dc s with
    | mk out s1 =>
      cases out with
      | error e => rfl
      | ok u =>
        simp only []
        exact forAllDevs_miss I _ body post _ s1 (by omega)
  | cons d pre ih =>
    intro channel s
    simp only [List.map_cons, List.sum_cons, List.cons_append]
    unfold forAllDevs
    rw [scanDevAll_miss _ (body d) _ 0 channel s (by omega)]
    simp only []
    have e : channel + (I.get_num_channels d + (pre.map I.get_num_channels).sum) + dc =
        channel + I.get_num_channels d + (pre.map I.get_num_channels).sum + dc := by omega
    rw [e]
    exact ih (channel + I.get_num_channels d) s

theorem invoke_unit_eq (s : osmosdr_sink_c_impl Dev W) (c : Call Dev) (op : Op W Unit) :
    (match s.invoke c op with
      | (Except.ok _, s1) => ((Except.ok (), s1) : Except String Unit × osmosdr_sink_c_impl Dev W)
      | (Except.error e, s1) => (Except.error e, s1)) = s.invoke c op := by
  cases hb : s.invoke c op with
  | mk out s1 =>
    cases out with
    | error e => rfl
    | ok u => rfl

/-- C20. Although their loops do not stop at the first match, `set_dc_offset` and
`set_iq_balance` invoke the backend exactly once for an in-range channel: on
the device and local channel that channel resolution assigns to it, with the
given offset or balance, and nothing else is invoked. -/
theorem dc_offset_iq_balance_invoke_once (I : osmosdr_snk_iface Dev W)
    (s : osmosdr_sink_c_impl Dev W) (value : complex_double) (chan : Nat)
    (h : chan < get_num_channels I s) :
    ∃ k dev dc, resolve I s._devs chan = some (k, dev, dc) ∧
      GoesToBackend (set_dc_offset I value chan) s
        (Call.set_dc_offset dev value dc) (I.set_dc_offset dev value dc) ∧
      GoesToBackend (set_iq_balance I value chan) s
        (Call.set_iq_balance dev value dc) (I.set_iq_balance dev value dc) := by
  rw [get_num_channels_eq_sum] at h
  obtain ⟨pre, dev, post, dc, h1, h2, h3, h4⟩ := resolve_of_lt I s._devs chan h
  refine ⟨pre.length, dev, dc, h4, ?_, ?_⟩
  · have e := forAllDevs_hit I
      (fun dev dev_chan s1 =>
        s1.invoke (Call.set_dc_offset dev value dev_chan) (I.set_dc_offset dev value dev_chan))
      dev post dc h2 pre 0 s
    simp only [Nat.zero_add, invoke_unit_eq] at e
    unfold GoesToBackend set_dc_offset
    rw [h1, h3, e]
    simp [invoke]
  · have e := forAllDevs_hit I
      (fun dev dev_chan s1 =>
        s1.invoke (Call.set_iq_balance dev value dev_chan) (I.set_iq_balance dev value dev_chan))
      dev post dc h2 pre 0 s
    simp only [Nat.zero_add, invoke_unit_eq] at e
    unfold GoesToBackend set_iq_balance
    rw [h1, h3, e]
    simp [invoke]

/-- C20, at a concrete input: channel 2 of a one-channel device followed by a
two-channel device is local channel 1 of the second device. -/
theorem dc_offset_iq_balance_invoke_once_witness :
    2 < get_num_channels Demo.exact (Demo.sink [Demo.hackrf0, Demo.uhd0]) ∧
    (set_dc_offset Demo.exact (1, 0) 2 (Demo.sink [Demo.hackrf0, Demo.uhd0])).2.log =
      [Call.set_dc_offset Demo.uhd0 (1, 0) 1] := by
  refine ⟨by decide, ?_⟩
  obtain ⟨k, dev, dc, hr, h1, _⟩ :=
    dc_offset_iq_balance_invoke_once Demo.exact (Demo.sink [Demo.hackrf0, Demo.uhd0]) (1, 0) 2
      (by decide)
  have e : resolve Demo.exact (Demo.sink [Demo.hackrf0, Demo.uhd0])._devs 2 =
      some (1, Demo.uhd0, 1) := by decide
  rw [e] at hr
  cases hr
  rw [h1.2.2]
  rfl

/-- C19. For a channel index at or beyond `get_num_channels()`, every per-channel
setter returns its neutral value (0, false, the empty string; nothing for the
two `void` setters) and leaves the sink exactly as it was: no backend
operation is logged, the hardware state is untouched, and no cache gets a new
entry or a new value. -/
theorem setters_out_of_range (I : osmosdr_snk_iface Dev W) (s : osmosdr_sink_c_impl Dev W)
    (chan : Nat) (v : Dbl) (name antenna : String) (automatic : Bool) (z : complex_double)
    (h : get_num_channels I s ≤ chan) :
    set_center_freq I v chan s = (Except.ok 0, s) ∧
    set_freq_corr I v chan s = (Except.ok 0, s) ∧
    set_gain I v chan s = (Except.ok 0, s) ∧
    set_gain_named I v name chan s = (Except.ok 0, s) ∧
    set_if_gain I v chan s = (Except.ok 0, s) ∧
    set_bb_gain I v chan s = (Except.ok 0, s) ∧
    set_gain_mode I automatic chan s = (Except.ok false, s) ∧
    set_antenna I antenna chan s = (Except.ok "", s) ∧
    set_bandwidth I v chan s = (Except.ok 0, s) ∧
    set_dc_offset I z chan s = (Except.ok (), s) ∧
    set_iq_balance I z chan s = (Except.ok (), s) := by
  have hsum : 0 + (s._devs.map I.get_num_channels).sum ≤ chan := by
    rw [← get_num_channels_eq_sum]; omega
  have hr : resolve I s._devs chan = none := resolve_of_ge I s._devs chan (by omega)
  refine ⟨?_, ?_, ?_, ?_, ?_, ?_, ?_, ?_, ?_, ?_, ?_⟩
  · simp [set_center_freq, hr]
  · simp [set_freq_corr, hr]
  · simp [set_gain, hr]
  · simp [set_gain_named, hr]
  · simp [set_if_gain, hr]
  · simp [set_bb_gain, hr]
  · simp [set_gain_mode, hr]
  · simp [set_antenna, hr]
  · simp [set_bandwidth, hr]
  · exact forAllDevs_miss I chan _ s._devs 0 s (Or.inr hsum)
  · exact forAllDevs_miss I chan _ s._devs 0 s (Or.inr hsum)

/-- C19, at a concrete input: channel 3 of a sink with three channels. -/
theorem setters_out_of_range_witness :
    get_num_channels Demo.exact (Demo.sink [Demo.hackrf0, Demo.uhd0]) ≤ 3 ∧
    set_center_freq Demo.exact 100 3 (Demo.sink [Demo.hackrf0, Demo.uhd0]) =
      (Except.ok 0, Demo.sink [Demo.hackrf0, Demo.uhd0]) ∧
    set_dc_offset Demo.exact (1, 0) 3 (Demo.sink [Demo.hackrf0, Demo.uhd0]) =
      (Except.ok (), Demo.sink [Demo.hackrf0, Demo.uhd0]) :=
  have h := setters_out_of_range Demo.exact (Demo.sink [Demo.hackrf0, Demo.uhd0]) 3 100 "" ""
    false (1, 0) (by decide)
  ⟨by decide, h.1, h.2.2.2.2.2.2.2.2.2.1⟩

/-! ## Independence of the caches -/

theorem CMap.get_touch_any {V : Type} [Inhabited V] (m : CMap V) (k j : Nat) :
    (m.touch k).get j = m.get j := by
  by_cases h : j = k
  · subst h; simp [CMap.get, CMap.touch]
  · simp [CMap.get, CMap.touch, h]

theorem CMap.get_set_ne {V : Type} [Inhabited V] (m : CMap V) (k j : Nat) (v : V) (h : j ≠ k) :
    (m.set k v).get j = m.get j := by
  simp [CMap.get, CMap.set, h]

/-- C17. Caches are independent per channel and per setting kind: a call of a
per-channel cached setter on the channel `chan` changes at most the cached
value of its own kind at `chan` (every other channel and every other kind,
the sample rate included, reads as before), and no getter changes any cache. -/
theorem caches_independent (I : osmosdr_snk_iface Dev W) (s : osmosdr_sink_c_impl Dev W)
    (chan : Nat) (v : Dbl) (name antenna : String) (automatic : Bool) :
    (ChangesAtMost (set_center_freq I v chan) s Setting.center_freq chan ∧
     ChangesAtMost (set_freq_corr I v chan) s Setting.freq_corr chan ∧
     ChangesAtMost (set_gain I v chan) s Setting.gain chan ∧
     ChangesAtMost (set_if_gain I v chan) s Setting.if_gain chan ∧
     ChangesAtMost (set_bb_gain I v chan) s Setting.bb_gain chan ∧
     ChangesAtMost (set_bandwidth I v chan) s Setting.bandwidth chan ∧
     ChangesAtMost (set_antenna I antenna chan) s Setting.antenna chan ∧
     ChangesAtMost (set_gain_mode I automatic chan) s Setting.gain_mode chan) ∧
    (SameCaches s (get_sample_rate I s).2 ∧
     SameCaches s (get_sample_rates I s).2 ∧
     SameCaches s (get_freq_range I chan s).2 ∧
     SameCaches s (get_center_freq I chan s).2 ∧
     SameCaches s (get_freq_corr I chan s).2 ∧
     SameCaches s (get_gain_names I chan s).2 ∧
     SameCaches s (get_gain_range I chan s).2 ∧
     SameCaches s (get_gain_range_named I name chan s).2 ∧
     SameCaches s (get_gain_mode I chan s).2 ∧
     SameCaches s (get_gain I chan s).2 ∧
     SameCaches s (get_gain_named I name chan s).2 ∧
     SameCaches s (get_antennas I chan s).2 ∧
     SameCaches s (get_antenna I chan s).2 ∧
     SameCaches s (get_bandwidth I chan s).2 ∧
     SameCaches s (get_bandwidth_range I chan s).2) := by
  constructor
  · refine ⟨?_, ?_, ?_, ?_, ?_, ?_, ?_, ?_⟩
    · intro kind c1 hne
      unfold set_center_freq
      cases hr : resolve I s._devs chan with
      | none => rfl
      | some r =>
        obtain ⟨k, dev, dc⟩ := r
        simp only []
        by_cases hc : Dbl.ne (s._center_freq.get chan) v = true
        · rw [if_pos hc]
          cases kind with
          | center_freq =>
            have hc1 : c1 ≠ chan := by simpa using hne
            simp only [cached, invoke]
            rw [CMap.get_set_ne _ _ _ _ hc1, CMap.get_touch_any]
          | _ => simp [cached, invoke]
        · rw [if_neg hc]
          cases kind <;> simp [cached, CMap.get_touch_any]
    · intro kind c1 hne
      unfold set_freq_corr
      cases hr : resolve I s._devs chan with
      | none => rfl
      | some r =>
        obtain ⟨k, dev, dc⟩ := r
        simp only []
        by_cases hc : Dbl.ne (s._freq_corr.get chan) v = true
        · rw [if_pos hc]
          cases kind with
          | freq_corr =>
            have hc1 : c1 ≠ chan := by simpa using hne
            simp only [cached, invoke]
            rw [CMap.get_set_ne _ _ _ _ hc1, CMap.get_touch_any]
          | _ => simp [cached, invoke]
        · rw [if_neg hc]
          cases kind <;> simp [cached, CMap.get_touch_any]
    · intro kind c1 hne
      unfold set_gain
      cases hr : resolve I s._devs chan with
      | none => rfl
      | some r =>
        obtain ⟨k, dev, dc⟩ := r
        simp only []
        by_cases hc : Dbl.ne (s._gain.get chan) v = true
        · rw [if_pos hc]
          cases kind with
          | gain =>
            have hc1 : c1 ≠ chan := by simpa using hne
            simp only [cached, invoke]
            rw [CMap.get_set_ne _ _ _ _ hc1, CMap.get_touch_any]
          | _ => simp [cached, invoke]
        · rw [if_neg hc]
          cases kind <;> simp [cached, CMap.get_touch_any]
    · intro kind c1 hne
      unfold set_if_gain
      cases hr : resolve I s._devs chan with
      | none => rfl
      | some r =>
        obtain ⟨k, dev, dc⟩ := r
        simp only []
        by_cases hc : Dbl.ne (s._if_gain.get chan) v = true
        · rw [if_pos hc]
          cases kind with
          | if_gain =>
            have hc1 : c1 ≠ chan := by simpa using hne
            simp only [cached, invoke]
            rw [CMap.get_set_ne _ _ _ _ hc1, CMap.get_touch_any]
          | _ => simp [cached, invoke]
        · rw [if_neg hc]
          cases kind <;> simp [cached, CMap.get_touch_any]
    · intro kind c1 hne
      unfold set_bb_gain
      cases hr : resolve I s._devs chan with
      | none => rfl
      | some r =>
        obtain ⟨k, dev, dc⟩ := r
        simp only []
        by_cases hc : Dbl.ne (s._bb_gain.get chan) v = true
        · rw [if_pos hc]
          cases kind with
          | bb_gain =>
            have hc1 : c1 ≠ chan := by simpa using hne
            simp only [cached, invoke]
            rw [CMap.get_set_ne _ _ _ _ hc1, CMap.get_touch_any]
          | _ => simp [cached, invoke]
        · rw [if_neg hc]
          cases kind <;> simp [cached, CMap.get_touch_any]
    · intro kind c1 hne
      unfold set_bandwidth
      cases hr : resolve I s._devs chan with
      | none => rfl
      | some r =>
        obtain ⟨k, dev, dc⟩ := r
        simp only []
        by_cases hc : (Dbl.ne (s._bandwidth.get chan) v || !(Dbl.ne 0 v)) = true
        · rw [if_pos hc]
          cases kind with
          | bandwidth =>
            have hc1 : c1 ≠ chan := by simpa using hne
            simp only [cached, invoke]
            rw [CMap.get_set_ne _ _ _ _ hc1, CMap.get_touch_any]
          | _ => simp [cached, invoke]
        · rw [if_neg hc]
          cases kind <;> simp [cached, CMap.get_touch_any]
    · intro kind c1 hne
      unfold set_antenna
      cases hr : resolve I s._devs chan with
      | none => rfl
      | some r =>
        obtain ⟨k, dev, dc⟩ := r
        simp only []
        by_cases hc : (s._antenna.get chan != antenna) = true
        · rw [if_pos hc]
          cases kind with
          | antenna =>
            have hc1 : c1 ≠ chan := by simpa using hne
            simp only [cached, invoke]
            rw [CMap.get_set_ne _ _ _ _ hc1, CMap.get_touch_any]
          | _ => simp [cached, invoke]
        · rw [if_neg hc]
          cases kind <;> simp [cached, CMap.get_touch_any]
    · intro kind c1 hne
      unfold set_gain_mode
      cases hr : resolve I s._devs chan with
      | none => rfl
      | some r =>
        obtain ⟨k, dev, dc⟩ := r
        simp only []
        by_cases hc : (s._gain_mode.get chan != automatic) = true
        · rw [if_pos hc]
          simp only [invoke]
          cases hb : (I.set_gain_mode dev automatic dc s.world).1 with
          | error e =>
            cases kind with
            | gain_mode =>
              have hc1 : c1 ≠ chan := by simpa using hne
              simp only [cached]
              rw [CMap.get_set_ne _ _ _ _ hc1, CMap.get_touch_any]
            | _ => simp [cached]
          | ok mode =>
            simp only []
            cases automatic with
            | true =>
              cases kind with
              | gain_mode =>
                have hc1 : c1 ≠ chan := by simpa using hne
                simp only [cached, Bool.not_true, Bool.false_eq_true, if_false]
                rw [CMap.get_set_ne _ _ _ _ hc1, CMap.get_touch_any]
              | _ => simp [cached]
            | false =>
              simp only [Bool.not_false, if_true]
              cases hg : (I.set_gain dev (s._gain.get chan) dc
                  (I.set_gain_mode dev false dc s.world).2).1 with
              | error e =>
                cases kind with
                | gain_mode =>
                  have hc1 : c1 ≠ chan := by simpa using hne
                  simp only [cached]
                  rw [CMap.get_set_ne _ _ _ _ hc1, CMap.get_touch_any]
                | _ => simp [cached, CMap.get_touch_any]
              | ok g =>
                cases kind with
                | gain_mode =>
                  have hc1 : c1 ≠ chan := by simpa using hne
                  simp only [cached]
                  rw [CMap.get_set_ne _ _ _ _ hc1, CMap.get_touch_any]
                | _ => simp [cached, CMap.get_touch_any]
        · rw [if_neg hc]
          cases kind <;> simp [cached, CMap.get_touch_any]
  · refine ⟨?_, ?_, ?_, ?_, ?_, ?_, ?_, ?_, ?_, ?_, ?_, ?_, ?_, ?_, ?_⟩
    · unfold get_sample_rate
      cases s._devs <;> simp [SameCaches, invoke]
    · unfold get_sample_rates
      cases s._devs <;> simp [SameCaches, invoke]
    · unfold get_freq_range
      cases resolve I s._devs chan <;> simp [SameCaches, invoke]
    · unfold get_center_freq
      cases resolve I s._devs chan <;> simp [SameCaches, invoke]
    · unfold get_freq_corr
      cases resolve I s._devs chan <;> simp [SameCaches, invoke]
    · unfold get_gain_names
      cases resolve I s._devs chan <;> simp [SameCaches, invoke]
    · unfold get_gain_range
      cases resolve I s._devs chan <;> simp [SameCaches, invoke]
    · unfold get_gain_range_named
      cases resolve I s._devs chan <;> simp [SameCaches, invoke]
    · unfold get_gain_mode
      cases resolve I s._devs chan <;> simp [SameCaches, invoke]
    · unfold get_gain
      cases resolve I s._devs chan <;> simp [SameCaches, invoke]
    · unfold get_gain_named
      cases resolve I s._devs chan <;> simp [SameCaches, invoke]
    · unfold get_antennas
      cases resolve I s._devs chan <;> simp [SameCaches, invoke]
    · unfold get_antenna
      cases resolve I s._devs chan <;> simp [SameCaches, invoke]
    · unfold get_bandwidth
      cases resolve I s._devs chan <;> simp [SameCaches, invoke]
    · unfold get_bandwidth_range
      cases resolve I s._devs chan <;> simp [SameCaches, invoke]

/-! ## Backend errors and the changed sample rate -/

/-- C15, the code at the failing input. On a one-device sink whose tuner raises,
`set_center_freq( 100, 0 )` (the cache reads 0) invokes the backend and
propagates its error, but the cached value for channel 0 is then 100; the
same call again invokes no backend and returns 100. -/
theorem failed_setter_value_stays_cached :
    0 < get_num_channels Demo.untunable (Demo.sink [Demo.hackrf0]) ∧
    (Demo.sink [Demo.hackrf0])._center_freq.get 0 = Dbl.num 0 ∧
    (set_center_freq Demo.untunable 100 0 (Demo.sink [Demo.hackrf0])).1 =
      Except.error "tuning failed" ∧
    (set_center_freq Demo.untunable 100 0 (Demo.sink [Demo.hackrf0])).2.log =
      [Call.set_center_freq Demo.hackrf0 100 0] ∧
    (set_center_freq Demo.untunable 100 0 (Demo.sink [Demo.hackrf0])).2._center_freq.get 0 =
      Dbl.num 100 ∧
    (set_center_freq Demo.untunable 100 0
      (set_center_freq Demo.untunable 100 0 (Demo.sink [Demo.hackrf0])).2).1 =
        Except.ok (Dbl.num 100) ∧
    (set_center_freq Demo.untunable 100 0
      (set_center_freq Demo.untunable 100 0 (Demo.sink [Demo.hackrf0])).2).2.log =
      [Call.set_center_freq Demo.hackrf0 100 0] := by
  refine ⟨by decide, by decide, rfl, by decide, by decide, rfl, by decide⟩

theorem set_sample_rate_loop_append (I : osmosdr_snk_iface Dev W) (rate : Dbl) (rest : List Dev) :
    ∀ (devs : List Dev) (sample_rate : Dbl) (s : osmosdr_sink_c_impl Dev W),
      set_sample_rate_loop I rate (devs ++ rest) sample_rate s =
        match set_sample_rate_loop I rate devs sample_rate s with
        | (Except.ok y, s1) => set_sample_rate_loop I rate rest y s1
        | (Except.error e, s1) => (Except.error e, s1) := by
  intro devs
  induction devs with
  | nil => intro sample_rate s; simp [set_sample_rate_loop]
  | cons d devs ih =>
    intro sample_rate s
    simp only [List.cons_append, set_sample_rate_loop, invoke]
    cases hb : (I.set_sample_rate d rate s.world).1 with
    | error e => rfl
    | ok y => exact ih y _

/-- C16 (as amended). For every device list with a last device and every rate
different from the cached sample rate, a call `set_sample_rate( rate )` that
returns (no device raises) has invoked `set_sample_rate( rate )` exactly once on
every device in device-list order, returns the value that the last device
returned, and has stored that value as the cached sample rate. -/
theorem set_sample_rate_changed (I : osmosdr_snk_iface Dev W) (s : osmosdr_sink_c_impl Dev W)
    (rate x : Dbl) (pre : List Dev) (last : Dev) (hdevs : s._devs = pre ++ [last])
    (hne : Dbl.ne s._sample_rate rate = true)
    (hret : (set_sample_rate I rate s).1 = Except.ok x) :
    (set_sample_rate I rate s).2.log =
      s.log ++ s._devs.map (fun dev => Call.set_sample_rate dev rate) ∧
    (I.set_sample_rate last rate (set_sample_rate_loop I rate pre 0 s).2.world).1 = Except.ok x ∧
    (set_sample_rate I rate s).2._sample_rate = x := by
  obtain ⟨_, _, h3⟩ := set_sample_rate_loop_spec I rate s._devs 0 s
  have happ := set_sample_rate_loop_append I rate [last] pre 0 s
  rw [← hdevs] at happ
  revert hret
  unfold set_sample_rate
  simp only [hne, if_true]
  cases hl : set_sample_rate_loop I rate s._devs 0 s with
  | mk out s1 =>
    rw [hl] at h3 happ
    cases out with
    | error e => intro hret; simp at hret
    | ok y =>
      intro hret
      simp only [Except.ok.injEq] at hret
      subst hret
      refine ⟨h3 y rfl, ?_, rfl⟩
      cases hp : set_sample_rate_loop I rate pre 0 s with
      | mk outp sp =>
        rw [hp] at happ
        cases outp with
        | error e => simp at happ
        | ok z =>
          simp only [set_sample_rate_loop, invoke] at happ
          cases hb : (I.set_sample_rate last rate sp.world).1 with
          | error e => rw [hb] at happ; simp at happ
          | ok u =>
            rw [hb] at happ
            simp only [Prod.mk.injEq, Except.ok.injEq] at happ
            rw [happ.1]

/-- C16 (as amended), at a concrete input: a fresh sink over two devices with
hardware that answers 48000; the cached rate is NaN, which differs from 44100. -/
theorem set_sample_rate_changed_witness :
    Dbl.ne (Demo.sink [Demo.hackrf0, Demo.uhd0])._sample_rate 44100 = true ∧
    (set_sample_rate Demo.clamped 44100 (Demo.sink [Demo.hackrf0, Demo.uhd0])).1 =
      Except.ok (Dbl.num 48000) ∧
    (set_sample_rate Demo.clamped 44100 (Demo.sink [Demo.hackrf0, Demo.uhd0])).2.log =
      (Demo.sink [Demo.hackrf0, Demo.uhd0]).log ++
        (Demo.sink [Demo.hackrf0, Demo.uhd0])._devs.map
          (fun dev => Call.set_sample_rate dev 44100) ∧
    (set_sample_rate Demo.clamped 44100 (Demo.sink [Demo.hackrf0, Demo.uhd0])).2._sample_rate =
      Dbl.num 48000 :=
  have h := set_sample_rate_changed Demo.clamped (Demo.sink [Demo.hackrf0, Demo.uhd0]) 44100
    (Dbl.num 48000) [Demo.hackrf0] Demo.uhd0 rfl (by decide) rfl
  ⟨by decide, rfl, h.1, h.2.2⟩


/-- C16 as stated fails when a device raises: on a sink over two devices whose
first device rejects the rate, `set_sample_rate( 44100 )` (the cached rate is
NaN, so it differs) propagates the error after the first device; the second
device is never invoked and the cached sample rate is still NaN. -/
theorem set_sample_rate_device_raises :
    Dbl.ne (Demo.sink [Demo.hackrf0, Demo.uhd0])._sample_rate 44100 = true ∧
    (set_sample_rate Demo.rate_rejected 44100 (Demo.sink [Demo.hackrf0, Demo.uhd0])).1 =
      Except.error "sample rate rejected" ∧
    (set_sample_rate Demo.rate_rejected 44100 (Demo.sink [Demo.hackrf0, Demo.uhd0])).2.log =
      [Call.set_sample_rate Demo.hackrf0 44100] ∧
    (set_sample_rate Demo.rate_rejected 44100 (Demo.sink [Demo.hackrf0, Demo.uhd0])).2.log.count
      (Call.set_sample_rate Demo.uhd0 44100) = 0 ∧
    (set_sample_rate Demo.rate_rejected 44100
      (Demo.sink [Demo.hackrf0, Demo.uhd0])).2._sample_rate = Dbl.nan := by
  refine ⟨by decide, rfl, by decide, by decide, by decide⟩

/-! ## The constructor: invariants, padding and backend selection -/

theorem connect_channels_eq (block : Dev) : ∀ (remaining i channel : Nat)
    (s : osmosdr_sink_c_impl Dev W),
    connect_channels block remaining i channel s =
      (channel + remaining,
        { s with wired := s.wired ++
            (List.range remaining).map (fun j => Wire.dev (channel + j) block (i + j)) }) := by
  intro remaining
  induction remaining with
  | zero => intro i channel s; simp [connect_channels]
  | succ r ih =>
    intro i channel s
    unfold connect_channels
    rw [ih]
    have e : channel + 1 + r = channel + (r + 1) := by omega
    rw [e, List.range_succ_eq_map]
    simp only [List.map_cons, List.map_map, List.append_assoc, List.singleton_append,
      Nat.add_zero]
    congr 4
    apply List.map_congr_left
    intro j _
    simp only [Function.comp, Nat.succ_eq_add_one]
    congr 1 <;> omega

theorem pad_channels_eq : ∀ (remaining channel : Nat) (s : osmosdr_sink_c_impl Dev W),
    pad_channels remaining channel s =
      (channel + remaining,
        { s with wired := s.wired ++
            (List.range remaining).map (fun j => Wire.pad (channel + j)) }) := by
  intro remaining
  induction remaining with
  | zero => intro channel s; simp [pad_channels]
  | succ r ih =>
    intro channel s
    unfold pad_channels
    rw [ih]
    have e : channel + 1 + r = channel + (r + 1) := by omega
    rw [e, List.range_succ_eq_map]
    simp only [List.map_cons, List.map_map, List.append_assoc, List.singleton_append,
      Nat.add_zero]
    congr 4
    apply List.map_congr_left
    intro j _
    simp only [Function.comp, Nat.succ_eq_add_one]
    congr 1; omega

theorem make_if_tagged_frame (enabled : Bool) (tag : String) (make : String → Op W (Option Dev))
    (dict : dict_t) (arg : String) (ib : Option Dev × Option Dev) (s : osmosdr_sink_c_impl Dev W) :
    ∃ w l, (make_if_tagged enabled tag make dict arg ib s).2 = { s with world := w, log := l } := by
  unfold make_if_tagged
  by_cases hc : (enabled && dict.count tag != 0) = true
  · rw [if_pos hc]
    simp only [invoke]
    cases (make arg s.world).1 with
    | error e => exact ⟨_, _, rfl⟩
    | ok sink => exact ⟨_, _, rfl⟩
  · rw [if_neg hc]
    exact ⟨s.world, s.log, rfl⟩

theorem Assembling.frame (channel : Nat) (s : osmosdr_sink_c_impl Dev W) (w : W)
    (l : List (Call Dev)) (h : Assembling channel s) :
    Assembling channel { s with world := w, log := l } := by
  simpa [Assembling, SameCaches, init] using h

theorem Assembling.connect (channel n : Nat) (block iface : Dev) (s : osmosdr_sink_c_impl Dev W)
    (h : Assembling channel s) :
    Assembling (connect_channels block n 0 channel { s with _devs := s._devs ++ [iface] }).1
      (connect_channels block n 0 channel { s with _devs := s._devs ++ [iface] }).2 := by
  rw [connect_channels_eq]
  obtain ⟨h1, h2, h3⟩ := h
  refine ⟨?_, ?_, ?_⟩
  · simp only [List.map_append, List.map_map, h1, List.range_add]
    congr 1
  · intro x hx
    simp only [List.mem_append, List.mem_map] at hx
    rcases hx with hx | ⟨j, _, rfl⟩
    · exact h2 x hx
    · rfl
  · simpa [SameCaches, init] using h3

theorem assemble_arg_inv (I : osmosdr_snk_iface Dev W) (B : BuildConfig Dev W) (arg : String)
    (channel : Nat) (s : osmosdr_sink_c_impl Dev W) (h : Assembling channel s) :
    Assembling (assemble_arg I B arg channel s).2.1 (assemble_arg I B arg channel s).2.2 := by
  unfold assemble_arg
  simp only []
  obtain ⟨w1, l1, f1⟩ := make_if_tagged_frame B.ENABLE_UHD "uhd" B.make_uhd_sink_c
    (B.params_to_dict arg) arg (none, none) s
  cases h1 : make_if_tagged B.ENABLE_UHD "uhd" B.make_uhd_sink_c
      (B.params_to_dict arg) arg (none, none) s with
  | mk o1 s1 =>
    rw [h1] at f1
    simp only [] at f1
    subst f1
    have a1 := Assembling.frame channel s w1 l1 h
    cases o1 with
    | error e => exact a1
    | ok ib1 =>
      simp only []
      obtain ⟨w2, l2, f2⟩ := make_if_tagged_frame B.ENABLE_HACKRF "hackrf" B.make_hackrf_sink_c
        (B.params_to_dict arg) arg ib1 { s with world := w1, log := l1 }
      cases h2 : make_if_tagged B.ENABLE_HACKRF "hackrf" B.make_hackrf_sink_c
          (B.params_to_dict arg) arg ib1 { s with world := w1, log := l1 } with
      | mk o2 s2 =>
        rw [h2] at f2
        simp only [] at f2
        subst f2
        have a2 := Assembling.frame channel s w2 l2 h
        cases o2 with
        | error e => exact a2
        | ok ib2 =>
          simp only []
          obtain ⟨w3, l3, f3⟩ := make_if_tagged_frame B.ENABLE_BLADERF "bladerf"
            B.make_bladerf_sink_c (B.params_to_dict arg) arg ib2 { s with world := w2, log := l2 }
          cases h3 : make_if_tagged B.ENABLE_BLADERF "bladerf" B.make_bladerf_sink_c
              (B.params_to_dict arg) arg ib2 { s with world := w2, log := l2 } with
          | mk o3 s3 =>
            rw [h3] at f3
            simp only [] at f3
            subst f3
            have a3 := Assembling.frame channel s w3 l3 h
            cases o3 with
            | error e => exact a3
            | ok ib3 =>
              obtain ⟨iface, block⟩ := ib3
              cases iface with
              | none =>
                cases block with
                | none => exact a3
                | some b => exact a3
              | some i =>
                cases block with
                | none => exact a3
                | some b =>
                  exact Assembling.connect channel (I.get_num_channels i) b i
                    { s with world := w3, log := l3 } a3

theorem assemble_inv (I : osmosdr_snk_iface Dev W) (B : BuildConfig Dev W) :
    ∀ (arg_list : List String) (channel : Nat) (s : osmosdr_sink_c_impl Dev W),
    Assembling channel s →
    Assembling (assemble I B arg_list channel s).2.1 (assemble I B arg_list channel s).2.2 := by
  intro arg_list
  induction arg_list with
  | nil => intro channel s h; exact h
  | cons arg rest ih =>
    intro channel s h
    have a := assemble_arg_inv I B arg channel s h
    unfold assemble
    cases h1 : assemble_arg I B arg channel s with
    | mk o r =>
      obtain ⟨channel1, s1⟩ := r
      rw [h1] at a
      cases o with
      | error e => exact a
      | ok u => exact ih channel1 s1 a

theorem assemble_all_inv (I : osmosdr_snk_iface Dev W) (B : BuildConfig Dev W)
    (arg_list : List String) (channel : Nat) (s : osmosdr_sink_c_impl Dev W)
    (h : Assembling channel s) :
    Assembling (assemble_all I B arg_list channel s).2.1
      (assemble_all I B arg_list channel s).2.2 := by
  have a := assemble_inv I B arg_list channel s h
  unfold assemble_all
  cases h1 : assemble I B arg_list channel s with
  | mk o r =>
    obtain ⟨channel1, s1⟩ := r
    rw [h1] at a
    cases o with
    | error e => exact a
    | ok u =>
      simp only []
      cases s1._devs.isEmpty <;> exact a

theorem try_block_inv (I : osmosdr_snk_iface Dev W) (B : BuildConfig Dev W)
    (arg_list : List String) (channel : Nat) (s : osmosdr_sink_c_impl Dev W)
    (h : Assembling channel s) :
    Assembling (try_block I B arg_list channel s).2.1 (try_block I B arg_list channel s).2.2 := by
  unfold try_block
  cases device_specified B arg_list with
  | true => exact assemble_all_inv I B arg_list channel s h
  | false =>
    simp only [Bool.not_false, if_true]
    cases dev_list B s.world with
    | nil => exact h
    | cons front rest => exact assemble_all_inv I B (arg_list ++ [front]) channel s h

theorem assembling_init (w : W) : Assembling 0 (init w : osmosdr_sink_c_impl Dev W) := by
  simp [Assembling, SameCaches, init]

theorem missing_chans_eq (n k : Nat) (hn : 0 < n) (hk : k ≤ n) (hint : (n : Int) < 2 ^ 31) :
    missing_chans (n : Int) k = n - k := by
  unfold missing_chans
  have h0 : (0 : Int) < (n : Int) := by exact_mod_cast hn
  rw [if_pos h0]
  have e : ((n : Int) - (k : Int)) = ((n - k : Nat) : Int) := by omega
  rw [e]
  have hlt : ((n - k : Nat) : Int) < 2 ^ 64 := by omega
  rw [Int.emod_eq_of_lt (by omega) hlt]
  simp

theorem device_specified_false (B : BuildConfig Dev W) (arg_list : List String)
    (h : ∀ arg ∈ arg_list, ∀ tag ∈ dev_types B, (B.params_to_dict arg).count tag = 0) :
    device_specified B arg_list = false := by
  unfold device_specified
  rw [Bool.eq_false_iff]
  intro ht
  simp only [List.any_eq_true] at ht
  obtain ⟨arg, harg, tag, htag, hcount⟩ := ht
  have := h arg harg tag htag
  simp [this] at hcount

/-- C13 (as amended). When no argument group names a compiled-in backend tag (in
particular with zero groups) and the discovery functions of all compiled-in
backends return no devices, the "no supported devices" error is raised in the
`try` block before any backend constructor is invoked; it is caught there, and
the constructor returns a sink without devices whose wired streams are the
padding channels `0, ..., n - 1`, where `n` is the count of missing channels
(the declared stream count when that is positive). -/
theorem no_supported_devices_padded (I : osmosdr_snk_iface Dev W) (B : BuildConfig Dev W)
    (args : String) (w : W)
    (hnone : ∀ arg ∈ B.args_to_vector args, ∀ tag ∈ dev_types B,
      (B.params_to_dict arg).count tag = 0)
    (huhd : B.ENABLE_UHD = true → B.uhd_get_devices w = [])
    (hhackrf : B.ENABLE_HACKRF = true → B.hackrf_get_devices w = [])
    (hbladerf : B.ENABLE_BLADERF = true → B.bladerf_get_devices w = []) :
    try_block I B (B.args_to_vector args) 0 (init w) =
      (Except.error "No supported devices found to pick from.", 0, init w) ∧
    osmosdr_make_sink_c I B args w =
      (missing_chans (B.max_streams args) 0,
        { (init w : osmosdr_sink_c_impl Dev W) with
          wired := (List.range (missing_chans (B.max_streams args) 0)).map Wire.pad }) ∧
    (osmosdr_make_sink_c I B args w).2._devs = [] ∧
    (osmosdr_make_sink_c I B args w).2.log = [] ∧
    (∀ n : Nat, B.max_streams args = (n : Int) → 0 < n → (n : Int) < 2 ^ 31 →
      missing_chans (B.max_streams args) 0 = n) := by
  have hspec := device_specified_false B (B.args_to_vector args) hnone
  have hlist : dev_list B (init w : osmosdr_sink_c_impl Dev W).world = [] := by
    unfold dev_list
    cases h1 : B.ENABLE_UHD <;> cases h2 : B.ENABLE_BLADERF <;> cases h3 : B.ENABLE_HACKRF <;>
      simp [init, huhd, hhackrf, hbladerf, h1, h2, h3]
  have htry : try_block I B (B.args_to_vector args) 0 (init w) =
      (Except.error "No supported devices found to pick from.", 0, init w) := by
    unfold try_block
    simp only [hspec, Bool.not_false, if_true, hlist]
  have hctor : osmosdr_make_sink_c I B args w =
      (missing_chans (B.max_streams args) 0,
        { (init w : osmosdr_sink_c_impl Dev W) with
          wired := (List.range (missing_chans (B.max_streams args) 0)).map Wire.pad }) := by
    unfold osmosdr_make_sink_c
    rw [htry]
    simp only []
    rw [pad_channels_eq]
    simp [init]
  refine ⟨htry, hctor, ?_, ?_, ?_⟩
  · rw [hctor]; rfl
  · rw [hctor]; rfl
  · intro n hn h0 hint
    rw [hn, missing_chans_eq n 0 h0 (Nat.zero_le n) hint]
    rfl

/-- C13, at a concrete input: the empty argument string (zero groups) with no
discoverable device and one declared stream. -/
theorem no_supported_devices_padded_witness :
    (osmosdr_make_sink_c Demo.exact Demo.config "" ()).2._devs = [] ∧
    (osmosdr_make_sink_c Demo.exact Demo.config "" ()).2.log = [] ∧
    missing_chans (Demo.config.max_streams "") 0 = 1 :=
  have h := no_supported_devices_padded Demo.exact Demo.config "" ()
    (by decide) (by decide) (by decide) (by decide)
  ⟨h.2.2.1, h.2.2.2.1, h.2.2.2.2 1 (by decide) (by decide) (by decide)⟩

/-- C13 as stated fails: with zero argument groups and no discoverable device the
"no supported devices" error is raised in the `try` block, but construction
does not abort; the constructor catches the error and returns a sink, with
the one declared stream wired to padding. -/
theorem no_supported_devices_not_fatal :
    Demo.config.args_to_vector "" = [] ∧
    dev_list Demo.config () = [] ∧
    (try_block Demo.exact Demo.config (Demo.config.args_to_vector "") 0 (init ())).1 =
      Except.error "No supported devices found to pick from." ∧
    (osmosdr_make_sink_c Demo.exact Demo.config "" ()).1 = 1 ∧
    (osmosdr_make_sink_c Demo.exact Demo.config "" ()).2.wired = [Wire.pad 0] ∧
    (osmosdr_make_sink_c Demo.exact Demo.config "" ()).2._devs = [] := by
  refine ⟨by decide, by decide, rfl, by decide, by decide, by decide⟩

/-- Backend selection for an argument group with at most one tag: for a group whose
dictionary contains the key of exactly one compiled-in backend tag, exactly one
backend constructor is invoked, the one of that tag, and, when it returns an
instance, that instance is the one device appended to the device list; a
group matching no compiled-in tag invokes no constructor and appends no device
(the sink and the channel counter are left as they were). -/
theorem backend_selection_single_tag (I : osmosdr_snk_iface Dev W) (B : BuildConfig Dev W)
    (arg : String) (channel : Nat) (s : osmosdr_sink_c_impl Dev W) :
    ((B.ENABLE_UHD && (B.params_to_dict arg).count "uhd" != 0) = false →
      (B.ENABLE_HACKRF && (B.params_to_dict arg).count "hackrf" != 0) = false →
      (B.ENABLE_BLADERF && (B.params_to_dict arg).count "bladerf" != 0) = false →
      assemble_arg I B arg channel s = (Except.ok (), channel, s)) ∧
    ((B.ENABLE_UHD && (B.params_to_dict arg).count "uhd" != 0) = true →
      (B.ENABLE_HACKRF && (B.params_to_dict arg).count "hackrf" != 0) = false →
      (B.ENABLE_BLADERF && (B.params_to_dict arg).count "bladerf" != 0) = false →
      (assemble_arg I B arg channel s).2.2.log = s.log ++ [Call.make "uhd" arg] ∧
      ∀ d, (B.make_uhd_sink_c arg s.world).1 = Except.ok (some d) →
        (assemble_arg I B arg channel s).2.2._devs = s._devs ++ [d]) ∧
    ((B.ENABLE_UHD && (B.params_to_dict arg).count "uhd" != 0) = false →
      (B.ENABLE_HACKRF && (B.params_to_dict arg).count "hackrf" != 0) = true →
      (B.ENABLE_BLADERF && (B.params_to_dict arg).count "bladerf" != 0) = false →
      (assemble_arg I B arg channel s).2.2.log = s.log ++ [Call.make "hackrf" arg] ∧
      ∀ d, (B.make_hackrf_sink_c arg s.world).1 = Except.ok (some d) →
        (assemble_arg I B arg channel s).2.2._devs = s._devs ++ [d]) ∧
    ((B.ENABLE_UHD && (B.params_to_dict arg).count "uhd" != 0) = false →
      (B.ENABLE_HACKRF && (B.params_to_dict arg).count "hackrf" != 0) = false →
      (B.ENABLE_BLADERF && (B.params_to_dict arg).count "bladerf" != 0) = true →
      (assemble_arg I B arg channel s).2.2.log = s.log ++ [Call.make "bladerf" arg] ∧
      ∀ d, (B.make_bladerf_sink_c arg s.world).1 = Except.ok (some d) →
        (assemble_arg I B arg channel s).2.2._devs = s._devs ++ [d]) := by
  refine ⟨?_, ?_, ?_, ?_⟩
  · intro c1 c2 c3
    simp [assemble_arg, make_if_tagged, c1, c2, c3]
  · intro c1 c2 c3
    unfold assemble_arg make_if_tagged
    simp only [c1, c2, c3, if_true, invoke]
    cases hb : (B.make_uhd_sink_c arg s.world).1 with
    | error e => simp [hb]
    | ok sink =>
      cases sink with
      | none => simp [hb]
      | some d0 => simp [hb, connect_channels_eq]
  · intro c1 c2 c3
    unfold assemble_arg make_if_tagged
    simp only [c1, c2, c3, if_true, invoke]
    cases hb : (B.make_hackrf_sink_c arg s.world).1 with
    | error e => simp [hb]
    | ok sink =>
      cases sink with
      | none => simp [hb]
      | some d0 => simp [hb, connect_channels_eq]
  · intro c1 c2 c3
    unfold assemble_arg make_if_tagged
    simp only [c1, c2, c3, if_true, invoke]
    cases hb : (B.make_bladerf_sink_c arg s.world).1 with
    | error e => simp [hb]
    | ok sink =>
      cases sink with
      | none => simp [hb]
      | some d0 => simp [hb, connect_channels_eq]

/-- Backend selection at a concrete input: the group `"hackrf=0"` with all backends
compiled in. -/
theorem backend_selection_single_tag_witness :
    (assemble_arg Demo.exact Demo.config "hackrf=0" 0 (init ())).2.2.log =
      [Call.make "hackrf" "hackrf=0"] ∧
    (assemble_arg Demo.exact Demo.config "hackrf=0" 0 (init ())).2.2._devs = [Demo.hackrf0] :=
  have h := (backend_selection_single_tag Demo.exact Demo.config "hackrf=0" 0 (init ())).2.2.1
    (by decide) (by decide) (by decide)
  ⟨h.1, h.2 Demo.hackrf0 rfl⟩

/-- C12, the code at the failing input. For the group `"uhd=0,hackrf=0"`, which
carries the keys of two compiled-in backends, both the UHD and the HackRF
constructor are invoked, and the one device appended is the HackRF instance,
the last match, not the instance of the first matching tag `uhd`. -/
theorem backend_selection_two_tags :
    (Demo.two_tags.params_to_dict "uhd=0,hackrf=0").count "uhd" = 1 ∧
    (Demo.two_tags.params_to_dict "uhd=0,hackrf=0").count "hackrf" = 1 ∧
    (Demo.two_tags.make_uhd_sink_c "uhd=0,hackrf=0" ()).1 = Except.ok (some Demo.uhd0) ∧
    (assemble_arg Demo.exact Demo.two_tags "uhd=0,hackrf=0" 0 (init ())).2.2.log =
      [Call.make "uhd" "uhd=0,hackrf=0", Call.make "hackrf" "uhd=0,hackrf=0"] ∧
    (assemble_arg Demo.exact Demo.two_tags "uhd=0,hackrf=0" 0 (init ())).2.2._devs =
      [Demo.hackrf0] ∧
    (assemble_arg Demo.exact Demo.two_tags "uhd=0,hackrf=0" 0 (init ())).2.2._devs ≠
      [Demo.uhd0] := by
  refine ⟨by decide, by decide, rfl, by decide, by decide, by decide⟩

/-! ## The caches of a freshly constructed sink -/

theorem constructed_fresh (I : osmosdr_snk_iface Dev W) (B : BuildConfig Dev W) (args : String)
    (w : W) : SameCaches (init w) (osmosdr_make_sink_c I B args w).2 := by
  have hinv := try_block_inv I B (B.args_to_vector args) 0 (init w) (assembling_init w)
  unfold osmosdr_make_sink_c
  cases ht : try_block I B (B.args_to_vector args) 0 (init w) with
  | mk o r =>
    obtain ⟨channel, s1⟩ := r
    rw [ht] at hinv
    obtain ⟨_, _, h3⟩ := hinv
    cases o with
    | ok u => simpa [SameCaches, init] using h3
    | error e =>
      simp only []
      rw [pad_channels_eq]
      simpa [SameCaches, init] using h3

theorem Dbl.ne_zero_left (v : Dbl) (h : v ≠ 0) : Dbl.ne 0 v = true := by
  cases v with
  | nan => rfl
  | num q =>
    have hq : q ≠ 0 := by
      intro h0
      apply h
      rw [h0]
      rfl
    show ((((0 : ℕ) : ℚ)) != q) = true
    simpa using hq.symm

/-- C18. On a freshly constructed sink (no setter called yet) an absent cache entry
reads as the default of its type: for every in-range channel the first call
`set_center_freq( 0, chan )`, `set_freq_corr( 0, chan )`, `set_gain( 0, chan )`,
`set_if_gain( 0, chan )`, `set_bb_gain( 0, chan )`, `set_antenna( "", chan )` or
`set_gain_mode( false, chan )` invokes no backend operation and returns 0, the
empty string or false, whereas a first call with any other value goes to the
backend. -/
theorem fresh_sink_default_cache (I : osmosdr_snk_iface Dev W) (B : BuildConfig Dev W)
    (args : String) (w : W) (s : osmosdr_sink_c_impl Dev W) (chan : Nat)
    (hs : s = (osmosdr_make_sink_c I B args w).2) (h : chan < get_num_channels I s) :
    ∃ k dev dc, resolve I s._devs chan = some (k, dev, dc) ∧
      (AnsweredFromCache (set_center_freq I 0 chan) s 0 ∧
       AnsweredFromCache (set_freq_corr I 0 chan) s 0 ∧
       AnsweredFromCache (set_gain I 0 chan) s 0 ∧
       AnsweredFromCache (set_if_gain I 0 chan) s 0 ∧
       AnsweredFromCache (set_bb_gain I 0 chan) s 0 ∧
       AnsweredFromCache (set_antenna I "" chan) s "" ∧
       AnsweredFromCache (set_gain_mode I false chan) s false) ∧
      (∀ v : Dbl, v ≠ 0 →
        GoesToBackend (set_center_freq I v chan) s (Call.set_center_freq dev v dc)
          (I.set_center_freq dev v dc) ∧
        GoesToBackend (set_freq_corr I v chan) s (Call.set_freq_corr dev v dc)
          (I.set_freq_corr dev v dc) ∧
        GoesToBackend (set_gain I v chan) s (Call.set_gain dev v dc) (I.set_gain dev v dc) ∧
        GoesToBackend (set_if_gain I v chan) s (Call.set_if_gain dev v dc)
          (I.set_if_gain dev v dc) ∧
        GoesToBackend (set_bb_gain I v chan) s (Call.set_bb_gain dev v dc)
          (I.set_bb_gain dev v dc)) ∧
      (∀ antenna : String, antenna ≠ "" →
        GoesToBackend (set_antenna I antenna chan) s (Call.set_antenna dev antenna dc)
          (I.set_antenna dev antenna dc)) ∧
      GoesToBackend (set_gain_mode I true chan) s (Call.set_gain_mode dev true dc)
        (I.set_gain_mode dev true dc) := by
  obtain ⟨k, dev, dc, hr⟩ := resolve_of_in_range I s chan h
  have hfresh := constructed_fresh I B args w
  rw [← hs] at hfresh
  obtain ⟨_, f1, f2, f3, f4, f5, f6, f7, _⟩ := hfresh
  have g1 : s._center_freq.get chan = 0 := by rw [f1]; rfl
  have g2 : s._freq_corr.get chan = 0 := by rw [f2]; rfl
  have g3 : s._gain_mode.get chan = false := by rw [f3]; rfl
  have g4 : s._gain.get chan = 0 := by rw [f4]; rfl
  have g5 : s._if_gain.get chan = 0 := by rw [f5]; rfl
  have g6 : s._bb_gain.get chan = 0 := by rw [f6]; rfl
  have g7 : s._antenna.get chan = "" := by rw [f7]; rfl
  have hz : Dbl.ne 0 0 = false := by decide
  refine ⟨k, dev, dc, hr, ⟨?_, ?_, ?_, ?_, ?_, ?_, ?_⟩, ?_, ?_, ?_⟩
  · simp [AnsweredFromCache, set_center_freq, hr, g1, hz]
  · simp [AnsweredFromCache, set_freq_corr, hr, g2, hz]
  · simp [AnsweredFromCache, set_gain, hr, g4, hz]
  · simp [AnsweredFromCache, set_if_gain, hr, g5, hz]
  · simp [AnsweredFromCache, set_bb_gain, hr, g6, hz]
  · simp [AnsweredFromCache, set_antenna, hr, g7]
  · simp [AnsweredFromCache, set_gain_mode, hr, g3]
  · intro v hv
    have hne := Dbl.ne_zero_left v hv
    refine ⟨?_, ?_, ?_, ?_, ?_⟩
    · simp [GoesToBackend, set_center_freq, hr, g1, hne, invoke]
    · simp [GoesToBackend, set_freq_corr, hr, g2, hne, invoke]
    · simp [GoesToBackend, set_gain, hr, g4, hne, invoke]
    · simp [GoesToBackend, set_if_gain, hr, g5, hne, invoke]
    · simp [GoesToBackend, set_bb_gain, hr, g6, hne, invoke]
  · intro antenna ha
    have ha2 : ¬ "" = antenna := fun e => ha e.symm
    simp [GoesToBackend, set_antenna, hr, g7, ha2, invoke]
  · unfold GoesToBackend set_gain_mode
    simp only [hr, g3, invoke]
    cases hb : (I.set_gain_mode dev true dc s.world).1 with
    | error e => simp [hb]
    | ok mode => simp [hb]

/-- C18, at a concrete input: channel 0 of the sink constructed from
`"hackrf=0 uhd=0,nchan=2"`; the first `set_center_freq( 0, 0 )` is answered from
the cache. -/
theorem fresh_sink_default_cache_witness :
    0 < get_num_channels Demo.exact
      (osmosdr_make_sink_c Demo.exact Demo.config "hackrf=0 uhd=0,nchan=2" ()).2 ∧
    AnsweredFromCache (set_center_freq Demo.exact 0 0)
      (osmosdr_make_sink_c Demo.exact Demo.config "hackrf=0 uhd=0,nchan=2" ()).2 0 := by
  refine ⟨by decide, ?_⟩
  obtain ⟨k, dev, dc, _, h1, _⟩ :=
    fresh_sink_default_cache Demo.exact Demo.config "hackrf=0 uhd=0,nchan=2" ()
      (osmosdr_make_sink_c Demo.exact Demo.config "hackrf=0 uhd=0,nchan=2" ()).2 0 rfl (by decide)
  exact h1.1

end osmosdr_sink_c_impl
end GrOsmoSDR
